import Mathlib

/- Verification of the three-stage web article extraction pipeline of
   web_article_extractor (extractor.py together with models.py).

   Modelling conventions:
   - A Python string is a list of characters (PyStr); slicing, strip,
     startswith and endswith are translated to the corresponding list
     operations.
   - A dynamically typed Python value crossing the JSON or CSV boundary is a
     PyVal; Python truthiness is PyVal.truthy.
   - Fallible Python code returns PyResult: a normal return or a raised
     exception, and a try/except block is pyTry with the caught exception
     classes made explicit.
   - The external collaborators (newspaper3k, trafilatura, requests, the LLM
     transport, json.loads and dateutil.parser.parse) are an explicit World
     of oracles; the repository functions are translated on top of them. -/

/-- A Python string, modelled as its list of characters. -/
abbrev PyStr := List Char

/-- The Python exception classes that occur in extractor.py, either in an
except clause or as an exception the translated code itself can raise. -/
inductive PyExn where
  | articleDownloadError
  | articleParseError
  | valueError
  | osError
  | htmlFetchError
  | llmExtractionError
  | requestException
  | jsonDecodeError
  | keyError
  | typeError
  | attributeError
deriving DecidableEq

/-- Outcome of running fallible Python code: a returned value or a raised
exception. -/
inductive PyResult (α : Type) where
  | ret (a : α)
  | exn (e : PyExn)

/-- Sequencing of fallible Python statements: an exception propagates. -/
def PyResult.bind {α β : Type} : PyResult α → (α → PyResult β) → PyResult β
  | .ret a, f => f a
  | .exn e, _ => .exn e

/-- A Python try/except block: an exception selected by the caught predicate
produces the fallback value of the except branch, any other exception
propagates. -/
def pyTry {α : Type} (caught : PyExn → Bool) (body : PyResult α) (fallback : α) : PyResult α :=
  match body with
  | .ret a => .ret a
  | .exn e => if caught e then .ret fallback else .exn e

/-- A dynamically typed Python value, covering the values that cross the
JSON and CSV boundaries of the program. -/
inductive PyVal where
  | none
  | vstr (s : PyStr)
  | vint (n : Int)
  | vbool (b : Bool)
  | vlist (xs : List PyVal)
  | vdict (kvs : List (PyStr × PyVal))

/-- Python truthiness of a value. -/
def PyVal.truthy : PyVal → Bool
  | .none => false
  | .vstr s => !s.isEmpty
  | .vint n => n != 0
  | .vbool b => b
  | .vlist xs => !xs.isEmpty
  | .vdict kvs => !kvs.isEmpty

/-- Python str.strip restricted to the left end. -/
def lstrip : PyStr → PyStr
  | [] => []
  | c :: cs => if c.isWhitespace then lstrip cs else c :: cs

/-- Python str.strip restricted to the right end. -/
def rstrip (s : PyStr) : PyStr := (lstrip s.reverse).reverse

/-- Python str.strip(): whitespace removed from both ends. -/
def pyStrip (s : PyStr) : PyStr := rstrip (lstrip s)

/-- Python slicing s[:-n] for n greater than zero. -/
def pyDropRight (n : Nat) (s : PyStr) : PyStr := s.take (s.length - n)

/-- Python dict.get(key, default). -/
def pyDictGet (kvs : List (PyStr × PyVal)) (k : PyStr) (default : PyVal) : PyVal :=
  match kvs.find? (fun kv => kv.1 == k) with
  | some kv => kv.2
  | Option.none => default

/-- Python value.get(key, default): the attribute lookup raises
AttributeError when the value is not a dict. -/
def pyValGet (v : PyVal) (k : PyStr) (default : PyVal) : PyResult PyVal :=
  match v with
  | .vdict kvs => .ret (pyDictGet kvs k default)
  | _ => .exn .attributeError

/-- Python value.strip(): the attribute lookup raises AttributeError when
the value is not a string. -/
def pyValStrip : PyVal → PyResult PyVal
  | .vstr s => .ret (.vstr (pyStrip s))
  | _ => .exn .attributeError

/-- The fields of a newspaper3k Article after download() and parse():
article.text (a string or None) and, when a publish_date is present, the
string its isoformat() call produces. -/
structure NewspaperArticle where
  text : Option PyStr
  publishDate : Option PyStr

/-- The metadata object trafilatura.extract_metadata returns: only its date
attribute is consumed by the program. -/
structure TrafMetadata where
  date : PyVal

/-- A calendar date as held by the datetime value dateutil produces; the
program only consumes its date() part. -/
structure Date where
  year : Nat
  month : Nat
  day : Nat
deriving DecidableEq

/-- The external collaborators of extractor.py as oracle functions. Each
oracle is a function of the text handed to the library, returning either a
value of the shape the program consumes or a raised exception. -/
structure World where
  /-- newspaper3k: Article(url), article.download(), article.parse(). -/
  newspaperFetch : PyStr → PyResult NewspaperArticle
  /-- trafilatura.fetch_url(url): page content, or None for a falsy result. -/
  trafilaturaFetchUrl : PyStr → PyResult (Option PyStr)
  /-- trafilatura.extract(downloaded, ...): text or None. -/
  trafilaturaExtract : PyStr → PyResult (Option PyStr)
  /-- trafilatura.extract_metadata(downloaded): metadata object or None. -/
  trafilaturaMetadata : PyStr → PyResult (Option TrafMetadata)
  /-- requests.get(url, ...) followed by raise_for_status() and .text. -/
  httpGet : PyStr → PyResult PyStr
  /-- GeminiAPI.query(prompt): the raw completion text. -/
  llmQuery : PyStr → PyResult PyStr
  /-- json.loads on the cleaned response text. -/
  jsonLoads : PyStr → PyResult PyVal
  /-- dateutil.parser.parse on an arbitrary runtime value. -/
  dateParse : PyVal → PyResult Date

/-- The except clause of extract_with_newspaper:
(ArticleDownloadError, ArticleParseError, ValueError, OSError). -/
def newspaperCaught : PyExn → Bool
  | .articleDownloadError => true
  | .articleParseError => true
  | .valueError => true
  | .osError => true
  | _ => false

/-- The except clause of extract_with_trafilatura:
(HTMLFetchError, ValueError, OSError). -/
def trafilaturaCaught : PyExn → Bool
  | .htmlFetchError => true
  | .valueError => true
  | .osError => true
  | _ => false

/-- The except clause of extract_with_gemini:
(LLMExtractionError, requests.RequestException, json.JSONDecodeError, KeyError). -/
def geminiCaught : PyExn → Bool
  | .llmExtractionError => true
  | .requestException => true
  | .jsonDecodeError => true
  | .keyError => true
  | _ => false

/-- ArticleExtractor.extract_with_newspaper (extractor.py lines 33 to 61). -/
def extract_with_newspaper (w : World) (url : PyStr) : PyResult (Option PyStr × PyVal) :=
  pyTry newspaperCaught
    ((w.newspaperFetch url).bind fun article =>
      let text : Option PyStr :=
        match article.text with
        | some t => if t.isEmpty then Option.none else some (pyStrip t)
        | Option.none => Option.none
      let date : PyVal :=
        match article.publishDate with
        | some d => .vstr d
        | Option.none => .none
      match text with
      | some t => if 100 < t.length then .ret (some t, date) else .ret (Option.none, .none)
      | Option.none => .ret (Option.none, .none))
    (Option.none, .none)

/-- ArticleExtractor.extract_with_trafilatura (extractor.py lines 63 to 96). -/
def extract_with_trafilatura (w : World) (url : PyStr) : PyResult (Option PyStr × PyVal) :=
  pyTry trafilaturaCaught
    ((w.trafilaturaFetchUrl url).bind fun downloaded =>
      match downloaded with
      | Option.none => .ret (Option.none, .none)
      | some content =>
        if content.isEmpty then .ret (Option.none, .none)
        else
          (w.trafilaturaExtract content).bind fun text =>
          (w.trafilaturaMetadata content).bind fun metadata =>
          let date : PyVal :=
            match metadata with
            | some md => if md.date.truthy then md.date else .none
            | Option.none => .none
          match text with
          | some t => if 100 < t.length then .ret (some t, date) else .ret (Option.none, .none)
          | Option.none => .ret (Option.none, .none))
    (Option.none, .none)

/-- The code-fence cleanup applied to the raw LLM response
(extractor.py lines 129 to 136): strip, drop a leading fence marker that is
tagged json, drop a leading untagged fence marker, drop a trailing fence
marker, strip again. -/
def cleanLLMResponse (s : PyStr) : PyStr :=
  let s1 := pyStrip s
  let s2 := if ("```json".toList).isPrefixOf s1 then s1.drop 7 else s1
  let s3 := if ("```".toList).isPrefixOf s2 then s2.drop 3 else s2
  let s4 := if ("```".toList).isSuffixOf s3 then pyDropRight 3 s3 else s3
  pyStrip s4

/-- The prompt built for Gemini (extractor.py lines 115 to 123), with the
HTML content truncated to its first 50000 characters. -/
def geminiPrompt (htmlContent : PyStr) : PyStr :=
  ("Extract the main article text and publication date from this HTML content.\nReturn a JSON object with two fields:\n- \"text\": The main article text (not HTML, just the readable text)\n- \"date\": The publication date in any format you can find (or null if not found)\n\nHTML content:\n".toList)
  ++ htmlContent.take 50000
  ++ ("\n\nReturn only valid JSON, no additional text.".toList)

/-- The response parsing step of extract_with_gemini (extractor.py lines
129 to 147): clean the fences, json.loads, take the text field with default
empty string and strip it, take the date field, then apply the 100-character
acceptance threshold. -/
def parse_llm_response (w : World) (responseText : PyStr) : PyResult (Option PyStr × PyVal) :=
  (w.jsonLoads (cleanLLMResponse responseText)).bind fun result =>
  (pyValGet result ("text".toList) (.vstr [])).bind fun textRaw =>
  (pyValStrip textRaw).bind fun textStripped =>
  (pyValGet result ("date".toList) .none).bind fun date =>
  match textStripped with
  | .vstr t => if 100 < t.length then .ret (some t, date) else .ret (Option.none, .none)
  | _ => .ret (Option.none, .none)

/-- ArticleExtractor.extract_with_gemini (extractor.py lines 98 to 150). -/
def extract_with_gemini (w : World) (url : PyStr) : PyResult (Option PyStr × PyVal) :=
  pyTry geminiCaught
    ((w.httpGet url).bind fun htmlContent =>
      (w.llmQuery (geminiPrompt htmlContent)).bind fun responseText =>
      parse_llm_response w responseText)
    (Option.none, .none)

/-- The character of a decimal digit. -/
def digitChar (n : Nat) : Char := Char.ofNat (48 + n)

/-- Zero-padded two-digit decimal rendering, as Python %02d for values
below one hundred. -/
def pad2 (n : Nat) : PyStr := [digitChar (n / 10 % 10), digitChar (n % 10)]

/-- Zero-padded four-digit decimal rendering, as Python %04d for values
below ten thousand; Python date years always are. -/
def pad4 (n : Nat) : PyStr :=
  [digitChar (n / 1000 % 10), digitChar (n / 100 % 10), digitChar (n / 10 % 10),
   digitChar (n % 10)]

/-- Python date.isoformat(): year-month-day, zero-padded, dash-separated. -/
def Date.isoformat (d : Date) : PyStr :=
  pad4 d.year ++ '-' :: (pad2 d.month ++ '-' :: pad2 d.day)

/-- ArticleExtractor.normalize_date (extractor.py lines 152 to 170): a falsy
input gives None, otherwise dateutil parses it and the date() part is
rendered in isoformat; ValueError and TypeError are caught and give None. -/
def normalize_date (w : World) (dateStr : PyVal) : PyResult (Option PyStr) :=
  if dateStr.truthy then
    match w.dateParse dateStr with
    | .ret d => .ret (some d.isoformat)
    | .exn e => if e = .valueError ∨ e = .typeError then .ret Option.none else .exn e
  else .ret Option.none

/-- ExtractionResult (models.py lines 6 to 17). Fields that an error result
leaves absent are Options. -/
structure ExtractionResult where
  id_value : PyStr
  url : PyVal
  extracted_text : Option PyStr
  publication_date : Option PyStr
  extraction_method : Option PyStr
  status : PyStr
  error_message : Option PyStr

/-- Modelled from the spec: ExtractionResult.create_error is called from
extractor.py but its definition is not among the provided sources; the spec
states that an error result carries status error and the message, with
extracted_text, publication_date and extraction_method all absent. -/
def ExtractionResult.create_error (idValue : PyStr) (url : PyVal) (msg : PyStr) : ExtractionResult :=
  { id_value := idValue
    url := url
    extracted_text := Option.none
    publication_date := Option.none
    extraction_method := Option.none
    status := "error".toList
    error_message := some msg }

/-- The URL validity test of extract_from_url (extractor.py line 183):
not url or not isinstance(url, str) or not url.strip(). -/
def urlInvalid : PyVal → Bool
  | .vstr s => (pyStrip s).isEmpty
  | _ => true

/-- Python url or "": the left value when truthy, else the empty string. -/
def pyOrEmpty (v : PyVal) : PyVal := if v.truthy then v else .vstr []

/-- The string content of a Python value known to be a string. -/
def strContent : PyVal → PyStr
  | .vstr s => s
  | _ => []

/-- Python truthiness of an optional string, as tested by the if text:
checks of extract_from_url. -/
def optTruthy : Option PyStr → Bool
  | some t => !t.isEmpty
  | Option.none => false

/-- ArticleExtractor.extract_from_url (extractor.py lines 172 to 234): the
three-stage pipeline over the stripped URL with first-success semantics. -/
def extract_from_url (w : World) (url : PyVal) (idValue : PyStr) : PyResult ExtractionResult :=
  if urlInvalid url then
    .ret (ExtractionResult.create_error idValue (pyOrEmpty url) ("Empty or invalid URL".toList))
  else
    let u := pyStrip (strContent url)
    (extract_with_newspaper w u).bind fun rn =>
    if optTruthy rn.1 then
      (normalize_date w rn.2).bind fun nd =>
      .ret { id_value := idValue, url := .vstr u, extracted_text := rn.1,
             publication_date := nd, extraction_method := some ("newspaper".toList),
             status := "success".toList, error_message := Option.none }
    else
      (extract_with_trafilatura w u).bind fun rt =>
      if optTruthy rt.1 then
        (normalize_date w rt.2).bind fun nd =>
        .ret { id_value := idValue, url := .vstr u, extracted_text := rt.1,
               publication_date := nd, extraction_method := some ("trafilatura".toList),
               status := "success".toList, error_message := Option.none }
      else
        (extract_with_gemini w u).bind fun rg =>
        if optTruthy rg.1 then
          (normalize_date w rg.2).bind fun nd =>
          .ret { id_value := idValue, url := .vstr u, extracted_text := rg.1,
                 publication_date := nd, extraction_method := some ("gemini".toList),
                 status := "success".toList, error_message := Option.none }
        else
          .ret (ExtractionResult.create_error idValue (.vstr u)
            ("All extraction methods failed".toList))

/-- The three extraction stages, in the fixed priority order of the code. -/
inductive Stage where
  | newspaper
  | trafilatura
  | gemini
deriving DecidableEq

/-- The fixed stage order of extract_from_url. -/
def stageOrder : List Stage := [.newspaper, .trafilatura, .gemini]

/-- The extraction_method tag each stage writes on success. -/
def stageName : Stage → PyStr
  | .newspaper => "newspaper".toList
  | .trafilatura => "trafilatura".toList
  | .gemini => "gemini".toList

/-- Run one stage on a stripped URL. -/
def stageRun (w : World) (u : PyStr) : Stage → PyResult (Option PyStr × PyVal)
  | .newspaper => extract_with_newspaper w u
  | .trafilatura => extract_with_trafilatura w u
  | .gemini => extract_with_gemini w u

/-- extract_from_url instrumented with the list of stages it attempts, in
order; the control flow mirrors extract_from_url exactly. -/
def extract_from_url_trace (w : World) (url : PyVal) (idValue : PyStr) :
    PyResult ExtractionResult × List Stage :=
  if urlInvalid url then
    (.ret (ExtractionResult.create_error idValue (pyOrEmpty url) ("Empty or invalid URL".toList)),
     [])
  else
    let u := pyStrip (strContent url)
    match extract_with_newspaper w u with
    | .exn e => (.exn e, [.newspaper])
    | .ret rn =>
      if optTruthy rn.1 then
        (match normalize_date w rn.2 with
        | .exn e => .exn e
        | .ret nd =>
          .ret { id_value := idValue, url := .vstr u, extracted_text := rn.1,
                 publication_date := nd, extraction_method := some ("newspaper".toList),
                 status := "success".toList, error_message := Option.none },
         [.newspaper])
      else
        match extract_with_trafilatura w u with
        | .exn e => (.exn e, [.newspaper, .trafilatura])
        | .ret rt =>
          if optTruthy rt.1 then
            (match normalize_date w rt.2 with
            | .exn e => .exn e
            | .ret nd =>
              .ret { id_value := idValue, url := .vstr u, extracted_text := rt.1,
                     publication_date := nd, extraction_method := some ("trafilatura".toList),
                     status := "success".toList, error_message := Option.none },
             [.newspaper, .trafilatura])
          else
            match extract_with_gemini w u with
            | .exn e => (.exn e, [.newspaper, .trafilatura, .gemini])
            | .ret rg =>
              if optTruthy rg.1 then
                (match normalize_date w rg.2 with
                | .exn e => .exn e
                | .ret nd =>
                  .ret { id_value := idValue, url := .vstr u, extracted_text := rg.1,
                         publication_date := nd, extraction_method := some ("gemini".toList),
                         status := "success".toList, error_message := Option.none },
                 [.newspaper, .trafilatura, .gemini])
              else
                (.ret (ExtractionResult.create_error idValue (.vstr u)
                  ("All extraction methods failed".toList)),
                 [.newspaper, .trafilatura, .gemini])

/-- Modelled from the spec: the Config object loaded from config.py is not
among the provided sources; the spec describes ExtractionConfig as the
identifier column name and the ordered list of URL column names. -/
structure Config where
  id_column : String
  url_columns : List String

/-- One row of a pandas DataFrame: column name to cell value. -/
abbrev Row := List (String × PyVal)

/-- The pandas DataFrame handed to process_csv: its column list and rows. -/
structure DataFrame where
  columns : List String
  rows : List Row

/-- Cell access row[col]; rows produced by read_csv carry every column. -/
def rowGet (r : Row) (c : String) : PyVal :=
  match r.find? (fun kv => kv.1 == c) with
  | some kv => kv.2
  | Option.none => .none

/-- Python str(value) for the scalar values a CSV cell can hold. The list
and dict renderings are placeholders: read_csv never produces such cells,
and no theorem below depends on them. -/
def pyStrOf : PyVal → PyStr
  | .vstr s => s
  | .none => "None".toList
  | .vint n => (toString n).toList
  | .vbool b => if b then "True".toList else "False".toList
  | .vlist _ => "<list>".toList
  | .vdict _ => "<dict>".toList

/-- Sequencing of a list of fallible calls, stopping at the first raised
exception, as the processing loop of process_csv does. -/
def pyMapM {α β : Type} (f : α → PyResult β) : List α → PyResult (List β)
  | [] => .ret []
  | a :: as => (f a).bind fun b => (pyMapM f as).bind fun bs => .ret (b :: bs)

/-- pyMapM instrumented with the list of inputs actually attempted. -/
def pyMapMTrace {α β : Type} (f : α → PyResult β) : List α → PyResult (List β) × List α
  | [] => (.ret [], [])
  | a :: as =>
    match f a with
    | .exn e => (.exn e, [a])
    | .ret b =>
      match pyMapMTrace f as with
      | (.ret bs, tr) => (.ret (b :: bs), a :: tr)
      | (.exn e, tr) => (.exn e, a :: tr)

/-- The (url, id) arguments fed to extract_from_url by the loops of
process_csv: outer loop over rows, inner loop over the configured URL
columns, with the id value rendered by str(). -/
def csvPairs (df : DataFrame) (cfg : Config) : List (PyVal × PyStr) :=
  df.rows.flatMap fun row =>
    cfg.url_columns.map fun c => (rowGet row c, pyStrOf (rowGet row cfg.id_column))

/-- An optional string as the Python value a DataFrame cell receives. -/
def optVal : Option PyStr → PyVal
  | some s => .vstr s
  | Option.none => .none

/-- One row of the output table, in the column order id, url,
extracted_text, publication_date, extraction_method, status, error_message
(extractor.py lines 280 to 293). -/
def outputRow (r : ExtractionResult) : List PyVal :=
  [.vstr r.id_value, r.url, optVal r.extracted_text, optVal r.publication_date,
   optVal r.extraction_method, .vstr r.status, optVal r.error_message]

/-- ArticleExtractor.process_csv (extractor.py lines 236 to 296) on an
already loaded DataFrame, returning the output table it would write: the
column validations raise ValueError, then every (row, URL column) pair is
extracted and one output row per result is produced. -/
def process_csv (w : World) (df : DataFrame) (cfg : Config) : PyResult (List (List PyVal)) :=
  if cfg.id_column ∈ df.columns then
    if (cfg.url_columns.filter (fun c => !(df.columns.contains c))).isEmpty then
      (pyMapM (fun p => extract_from_url w p.1 p.2) (csvPairs df cfg)).bind fun results =>
      .ret (results.map outputRow)
    else .exn .valueError
  else .exn .valueError

/-- process_csv instrumented with the (url, id) pairs for which
extract_from_url is actually invoked. -/
def process_csv_trace (w : World) (df : DataFrame) (cfg : Config) :
    PyResult (List (List PyVal)) × List (PyVal × PyStr) :=
  if cfg.id_column ∈ df.columns then
    if (cfg.url_columns.filter (fun c => !(df.columns.contains c))).isEmpty then
      match pyMapMTrace (fun p => extract_from_url w p.1 p.2) (csvPairs df cfg) with
      | (.ret results, tr) => (.ret (results.map outputRow), tr)
      | (.exn e, tr) => (.exn e, tr)
    else (.exn .valueError, [])
  else (.exn .valueError, [])

/-- The numeric value of a decimal digit character. -/
def digitVal (c : Char) : Nat := c.toNat - 48

/-- Recognizer for a canonical calendar-date string: year-month-day,
zero-padded, dash-separated, giving the date it denotes. -/
def parseCanonical (s : PyStr) : Option Date :=
  match s with
  | [y1, y2, y3, y4, h1, m1, m2, h2, d1, d2] =>
    if y1.isDigit ∧ y2.isDigit ∧ y3.isDigit ∧ y4.isDigit ∧ h1 = '-' ∧
       m1.isDigit ∧ m2.isDigit ∧ h2 = '-' ∧ d1.isDigit ∧ d2.isDigit then
      some
        { year := digitVal y1 * 1000 + digitVal y2 * 100 + digitVal y3 * 10 + digitVal y4
          month := digitVal m1 * 10 + digitVal m2
          day := digitVal d1 * 10 + digitVal d2 }
    else Option.none
  | _ => Option.none

/-- The Markdown code-fence wrappings the LLM may put around its JSON
payload: an optional leading fence marker, optionally tagged json, an
optional trailing fence marker, and surrounding whitespace. -/
def fenceWrap (tag lead trail : Bool) (ws1 ws2 : PyStr) (p : PyStr) : PyStr :=
  ws1 ++ (if lead then (if tag then "```json".toList else "```".toList) ++ ['\n'] else [])
      ++ p ++ (if trail then '\n' :: "```".toList else []) ++ ws2

/-- A test world in which every collaborator fails or finds nothing. -/
def wAllFail : World :=
  { newspaperFetch := fun _ => .exn .articleDownloadError
    trafilaturaFetchUrl := fun _ => .ret Option.none
    trafilaturaExtract := fun _ => .ret Option.none
    trafilaturaMetadata := fun _ => .ret Option.none
    httpGet := fun _ => .exn .requestException
    llmQuery := fun _ => .ret []
    jsonLoads := fun _ => .exn .jsonDecodeError
    dateParse := fun _ => .exn .valueError }

/-- A 101-character test text, just over the acceptance threshold. -/
def text101 : PyStr := List.replicate 101 'a'

/-- A test world in which the newspaper stage finds a long text. -/
def wNews : World :=
  { wAllFail with
    newspaperFetch := fun _ => .ret { text := some text101, publishDate := Option.none } }

/-- A test world in which the newspaper stage finds only a short text and the
trafilatura stage finds a long one. -/
def wTraf : World :=
  { wAllFail with
    newspaperFetch := fun _ =>
      .ret { text := some ("short".toList), publishDate := Option.none }
    trafilaturaFetchUrl := fun _ => .ret (some ("<html>".toList))
    trafilaturaExtract := fun _ => .ret (some text101)
    trafilaturaMetadata := fun _ => .ret Option.none }

/-- A test world in which the structured stages find nothing, the page fetch
succeeds, and the LLM answers with a JSON object whose text field is null. -/
def wBad : World :=
  { wAllFail with
    httpGet := fun _ => .ret ("<html>page</html>".toList)
    llmQuery := fun _ => .ret ("\x7b\"text\": null\x7d".toList)
    jsonLoads := fun s =>
      if s = ("\x7b\"text\": null\x7d".toList) then .ret (.vdict [("text".toList, .none)])
      else .exn .jsonDecodeError }

/-- A test world whose date parser answers January 5th 2024 on every input. -/
def wDate : World :=
  { wAllFail with dateParse := fun _ => .ret { year := 2024, month := 1, day := 5 } }


/-- The extraction result wNews yields for the test URL. -/
def rNews : ExtractionResult :=
  { id_value := "id2".toList
    url := .vstr (pyStrip ("http://x".toList))
    extracted_text := some text101
    publication_date := Option.none
    extraction_method := some ("newspaper".toList)
    status := "success".toList
    error_message := Option.none }


/-- A two-row test table with an identifier column and two URL columns. -/
def df2 : DataFrame :=
  { columns := ["id", "u1", "u2"]
    rows :=
      [[("id", .vstr ("1".toList)), ("u1", .none), ("u2", .vstr ("http://a".toList))],
       [("id", .vstr ("2".toList)), ("u1", .vstr ("  ".toList)), ("u2", .vstr ("b".toList))]] }

/-- A configuration naming the identifier column and both URL columns. -/
def cfg2 : Config := { id_column := "id", url_columns := ["u1", "u2"] }

/-- A configuration whose identifier column does not exist in df2. -/
def cfgBad : Config := { id_column := "nope", url_columns := ["u1"] }


theorem lstrip_cons_ws {c : Char} (l : PyStr) (h : c.isWhitespace = true) :
    lstrip (c :: l) = lstrip l := by
  simp [lstrip, h]

theorem lstrip_cons_not_ws {c : Char} (l : PyStr) (h : c.isWhitespace = false) :
    lstrip (c :: l) = c :: l := by
  simp [lstrip, h]

theorem lstrip_ws_append {ws : PyStr} (l : PyStr) (h : ∀ c ∈ ws, c.isWhitespace = true) :
    lstrip (ws ++ l) = lstrip l := by
  induction ws with
  | nil => rfl
  | cons c cs ih =>
    rw [List.cons_append, lstrip_cons_ws _ (h c (List.mem_cons_self c cs))]
    exact ih (fun d hd => h d (List.mem_cons_of_mem c hd))

theorem lstrip_append_of_ne_nil {a : PyStr} (b : PyStr) (h : lstrip a ≠ []) :
    lstrip (a ++ b) = lstrip a ++ b := by
  induction a with
  | nil => exact absurd rfl h
  | cons c cs ih =>
    by_cases hc : c.isWhitespace
    · rw [List.cons_append, lstrip_cons_ws _ hc, lstrip_cons_ws _ hc]
      exact ih (by rwa [lstrip_cons_ws _ hc] at h)
    · rw [List.cons_append, lstrip_cons_not_ws _ (Bool.eq_false_iff.mpr hc),
        lstrip_cons_not_ws _ (Bool.eq_false_iff.mpr hc), List.cons_append]

theorem lstrip_eq_nil_ws {l : PyStr} (h : lstrip l = []) : ∀ c ∈ l, c.isWhitespace = true := by
  induction l with
  | nil => intro c hc; cases hc
  | cons c cs ih =>
    intro d hd
    by_cases hc : c.isWhitespace
    · rw [lstrip_cons_ws _ hc] at h
      rcases List.mem_cons.mp hd with rfl | hd2
      · exact hc
      · exact ih h d hd2
    · rw [lstrip_cons_not_ws _ (Bool.eq_false_iff.mpr hc)] at h
      cases h

theorem ws_lstrip_eq_nil {l : PyStr} (h : ∀ c ∈ l, c.isWhitespace = true) : lstrip l = [] := by
  induction l with
  | nil => rfl
  | cons c cs ih =>
    rw [lstrip_cons_ws _ (h c (List.mem_cons_self c cs))]
    exact ih (fun d hd => h d (List.mem_cons_of_mem c hd))

theorem lstrip_head_not_ws {l t : PyStr} {c : Char} (h : lstrip l = c :: t) :
    c.isWhitespace = false := by
  induction l with
  | nil => cases h
  | cons a as ih =>
    by_cases ha : a.isWhitespace
    · rw [lstrip_cons_ws _ ha] at h
      exact ih h
    · rw [lstrip_cons_not_ws _ (Bool.eq_false_iff.mpr ha)] at h
      cases h
      exact Bool.eq_false_iff.mpr ha

theorem lstrip_decomp (l : PyStr) :
    ∃ a, (∀ c ∈ a, c.isWhitespace = true) ∧ l = a ++ lstrip l := by
  induction l with
  | nil => exact ⟨[], fun c hc => (List.not_mem_nil c hc).elim, rfl⟩
  | cons c cs ih =>
    by_cases hc : c.isWhitespace
    · obtain ⟨a, ha, he⟩ := ih
      refine ⟨c :: a, ?_, ?_⟩
      · intro d hd
        rcases List.mem_cons.mp hd with rfl | hd2
        · exact hc
        · exact ha d hd2
      · rw [lstrip_cons_ws _ hc, List.cons_append, ← he]
    · exact ⟨[], fun d hd => (List.not_mem_nil d hd).elim,
        by rw [lstrip_cons_not_ws _ (Bool.eq_false_iff.mpr hc), List.nil_append]⟩

theorem lstrip_idem (l : PyStr) : lstrip (lstrip l) = lstrip l := by
  cases h : lstrip l with
  | nil => rfl
  | cons c t => exact lstrip_cons_not_ws _ (lstrip_head_not_ws h)

theorem rstrip_ws_append {ws : PyStr} (l : PyStr) (h : ∀ c ∈ ws, c.isWhitespace = true) :
    rstrip (l ++ ws) = rstrip l := by
  unfold rstrip
  rw [List.reverse_append, lstrip_ws_append _ (fun c hc => h c (List.mem_reverse.mp hc))]

theorem rstrip_append_of_ne_nil (a : PyStr) {b : PyStr} (h : rstrip b ≠ []) :
    rstrip (a ++ b) = a ++ rstrip b := by
  have h2 : lstrip b.reverse ≠ [] := by
    intro he
    exact h (by simp only [rstrip, he, List.reverse_nil])
  simp only [rstrip]
  rw [List.reverse_append, lstrip_append_of_ne_nil _ h2, List.reverse_append,
    List.reverse_reverse]

theorem rstrip_eq_nil_ws {l : PyStr} (h : rstrip l = []) : ∀ c ∈ l, c.isWhitespace = true := by
  intro c hc
  have h2 : lstrip l.reverse = [] := by
    have := congrArg List.reverse h
    rwa [rstrip, List.reverse_reverse, List.reverse_nil] at this
  exact lstrip_eq_nil_ws h2 c (List.mem_reverse.mpr hc)

theorem ws_rstrip_eq_nil {l : PyStr} (h : ∀ c ∈ l, c.isWhitespace = true) : rstrip l = [] := by
  unfold rstrip
  rw [ws_lstrip_eq_nil (fun c hc => h c (List.mem_reverse.mp hc)), List.reverse_nil]

theorem rstrip_decomp (l : PyStr) :
    ∃ b, (∀ c ∈ b, c.isWhitespace = true) ∧ l = rstrip l ++ b := by
  obtain ⟨a, ha, he⟩ := lstrip_decomp l.reverse
  refine ⟨a.reverse, fun c hc => ha c (List.mem_reverse.mp hc), ?_⟩
  simp only [rstrip]
  have := congrArg List.reverse he
  rwa [List.reverse_reverse, List.reverse_append] at this

theorem rstrip_idem (l : PyStr) : rstrip (rstrip l) = rstrip l := by
  unfold rstrip
  rw [List.reverse_reverse, lstrip_idem]

theorem pyStrip_lstrip_ne_nil {l : PyStr} (h : pyStrip l ≠ []) : lstrip l ≠ [] := by
  intro he
  exact h (by rw [pyStrip, he]; rfl)

theorem pyStrip_rstrip_ne_nil {l : PyStr} (h : pyStrip l ≠ []) : rstrip l ≠ [] := by
  intro he
  have hws := rstrip_eq_nil_ws he
  exact pyStrip_lstrip_ne_nil h (ws_lstrip_eq_nil hws)

theorem isPrefixOf_append_self (l m : PyStr) : l.isPrefixOf (l ++ m) = true :=
  List.isPrefixOf_iff_prefix.mpr (List.prefix_append l m)

theorem isSuffixOf_append_self (l m : PyStr) : l.isSuffixOf (m ++ l) = true :=
  List.isSuffixOf_iff_suffix.mpr (List.suffix_append m l)

theorem fence_head_mismatch {X : PyStr} {c : Char} (hX : X.head? = some c)
    (hc : c ≠ Char.ofNat 96) : ("```".toList).isPrefixOf X = false := by
  cases X with
  | nil => cases hX
  | cons x xs =>
    have hx : x = c := by simpa using hX
    subst hx
    apply Bool.eq_false_iff.mpr
    intro h
    have h2 := List.isPrefixOf_iff_prefix.mp h
    rw [show ("```".toList) = Char.ofNat 96 :: Char.ofNat 96 :: [Char.ofNat 96] from by decide]
      at h2
    exact hc ((List.cons_prefix_cons.mp h2).1.symm)

theorem fence_tagged_head_mismatch {X : PyStr} {c : Char} (hX : X.head? = some c)
    (hc : c ≠ Char.ofNat 96) : ("```json".toList).isPrefixOf X = false := by
  cases X with
  | nil => cases hX
  | cons x xs =>
    have hx : x = c := by simpa using hX
    subst hx
    apply Bool.eq_false_iff.mpr
    intro h
    have h2 := List.isPrefixOf_iff_prefix.mp h
    rw [show ("```json".toList) =
        Char.ofNat 96 :: Char.ofNat 96 :: Char.ofNat 96 :: 'j' :: 's' :: 'o' :: ['n']
      from by decide] at h2
    exact hc ((List.cons_prefix_cons.mp h2).1.symm)

theorem fence_not_suffix {X : PyStr} {c : Char} (hX : X.getLast? = some c)
    (hc : c ≠ Char.ofNat 96) : ("```".toList).isSuffixOf X = false := by
  apply Bool.eq_false_iff.mpr
  intro h
  obtain ⟨a, ha⟩ := List.isSuffixOf_iff_suffix.mp h
  rw [← ha, List.getLast?_append,
    show (("```".toList).getLast?) = some (Char.ofNat 96) from by decide, Option.or_some] at hX
  exact hc (by simpa using hX.symm)

theorem fence_tagged_plain_mismatch (X : PyStr) :
    ("```json".toList).isPrefixOf ("```".toList ++ '\n' :: X) = false := by
  apply Bool.eq_false_iff.mpr
  intro h
  have h2 := List.isPrefixOf_iff_prefix.mp h
  rw [show ("```json".toList) =
      Char.ofNat 96 :: Char.ofNat 96 :: Char.ofNat 96 :: 'j' :: 's' :: 'o' :: ['n']
    from by decide] at h2
  rw [show ("```".toList ++ '\n' :: X) =
      Char.ofNat 96 :: Char.ofNat 96 :: Char.ofNat 96 :: '\n' :: X from by
    rw [show ("```".toList) = Char.ofNat 96 :: Char.ofNat 96 :: [Char.ofNat 96] from by decide]
    rfl] at h2
  have h3 := List.cons_prefix_cons.mp h2
  have h4 := List.cons_prefix_cons.mp h3.2
  have h5 := List.cons_prefix_cons.mp h4.2
  have h6 := List.cons_prefix_cons.mp h5.2
  exact absurd h6.1 (by decide)

theorem drop_append_of_length {l : PyStr} (m : PyStr) {n : Nat} (h : l.length = n) :
    List.drop n (l ++ m) = m := by
  rw [← h, List.drop_left]

theorem pyDropRight_append (l : PyStr) {m : PyStr} {n : Nat} (h : m.length = n) :
    pyDropRight n (l ++ m) = l := by
  simp only [pyDropRight, List.length_append, h, Nat.add_sub_cancel]
  exact List.take_left l m

theorem lstrip_pyStrip (l : PyStr) : lstrip (pyStrip l) = pyStrip l := by
  obtain ⟨b, hb, he⟩ := rstrip_decomp (lstrip l)
  cases hq : pyStrip l with
  | nil => rfl
  | cons c q =>
    have hq2 : rstrip (lstrip l) = c :: q := hq
    rw [hq2] at he
    have hc : c.isWhitespace = false :=
      lstrip_head_not_ws (l := l) (by rw [he, List.cons_append])
    exact lstrip_cons_not_ws _ hc

theorem rstrip_pyStrip (l : PyStr) : rstrip (pyStrip l) = pyStrip l := by
  simp only [pyStrip]
  exact rstrip_idem _

theorem pyStrip_idem (l : PyStr) : pyStrip (pyStrip l) = pyStrip l := by
  calc pyStrip (pyStrip l) = rstrip (lstrip (pyStrip l)) := rfl
    _ = rstrip (pyStrip l) := by rw [lstrip_pyStrip]
    _ = pyStrip l := rstrip_pyStrip l

theorem pyStrip_head_aux {p : PyStr} (hq : pyStrip p ≠ []) :
    (pyStrip p).head? = (lstrip p).head? := by
  obtain ⟨b, hb, he⟩ := rstrip_decomp (lstrip p)
  have he2 : lstrip p = pyStrip p ++ b := he
  rw [he2, List.head?_append_of_ne_nil _ hq]

theorem pyStrip_getLast_aux {p : PyStr} (hq : pyStrip p ≠ []) :
    (pyStrip p).getLast? = (rstrip p).getLast? := by
  obtain ⟨a, ha, he⟩ := lstrip_decomp p
  have h2 : rstrip p = a ++ pyStrip p := by
    calc rstrip p = rstrip (a ++ lstrip p) := by rw [← he]
      _ = a ++ pyStrip p := rstrip_append_of_ne_nil a hq
  rw [h2, List.getLast?_append]
  cases hgl : (pyStrip p).getLast? with
  | none =>
    exact absurd (List.getLast?_isSome.mpr hq) (by rw [hgl]; simp)
  | some c => exact Option.or_some.symm

theorem ite_of_false {α : Type} {b : Bool} (h : b = false) (x y : α) :
    (if b = true then x else y) = y := by
  subst h
  simp

theorem ite_of_true {α : Type} {b : Bool} (h : b = true) (x y : α) :
    (if b = true then x else y) = x := by
  subst h
  simp

theorem cleanLLMResponse_payload {p : PyStr} (hq : pyStrip p ≠ [])
    (hpre : ∀ c, (lstrip p).head? = some c → c ≠ Char.ofNat 96)
    (hsuf : ∀ c, (rstrip p).getLast? = some c → c ≠ Char.ofNat 96) :
    cleanLLMResponse p = pyStrip p := by
  obtain ⟨c, q', hqc⟩ : ∃ c q', pyStrip p = c :: q' := by
    cases hqc : pyStrip p with
    | nil => exact absurd hqc hq
    | cons c q' => exact ⟨c, q', rfl⟩
  have hhead : (pyStrip p).head? = some c := by rw [hqc]; rfl
  have hc : c ≠ Char.ofNat 96 := hpre c (by rw [← pyStrip_head_aux hq, hhead])
  obtain ⟨d, hd, hdns⟩ : ∃ d, (pyStrip p).getLast? = some d ∧ d ≠ Char.ofNat 96 := by
    cases hgl : (pyStrip p).getLast? with
    | none => exact absurd (List.getLast?_isSome.mpr hq) (by rw [hgl]; simp)
    | some d => exact ⟨d, rfl, hsuf d (by rw [← pyStrip_getLast_aux hq, hgl])⟩
  simp only [cleanLLMResponse]
  rw [ite_of_false (fence_tagged_head_mismatch hhead hc) _ _,
    ite_of_false (fence_head_mismatch hhead hc) _ _,
    ite_of_false (fence_not_suffix hd hdns) _ _,
    pyStrip_idem]

theorem pyStrip_cons_ws {c : Char} (l : PyStr) (h : c.isWhitespace = true) :
    pyStrip (c :: l) = pyStrip l := by
  simp only [pyStrip, lstrip_cons_ws _ h]

theorem pyStrip_ws_append {ws : PyStr} (l : PyStr) (h : ∀ c ∈ ws, c.isWhitespace = true) :
    pyStrip (ws ++ l) = pyStrip l := by
  simp only [pyStrip, lstrip_ws_append _ h]

theorem pyStrip_append_ws (l : PyStr) {ws : PyStr} (h : ∀ c ∈ ws, c.isWhitespace = true) :
    pyStrip (l ++ ws) = pyStrip l := by
  by_cases hl : lstrip l = []
  · have hlws := lstrip_eq_nil_ws hl
    have hall : ∀ c ∈ l ++ ws, c.isWhitespace = true := by
      intro c hc
      rcases List.mem_append.mp hc with hc2 | hc2
      · exact hlws c hc2
      · exact h c hc2
    simp only [pyStrip, ws_lstrip_eq_nil hall, hl]
  · simp only [pyStrip, lstrip_append_of_ne_nil _ hl, rstrip_ws_append _ h]

theorem pyStrip_lstrip_eq (l : PyStr) : pyStrip (lstrip l) = pyStrip l := by
  simp only [pyStrip, lstrip_idem]

theorem pyStrip_rstrip (l : PyStr) : pyStrip (rstrip l) = pyStrip l := by
  by_cases hq : pyStrip l = []
  · have hl : lstrip l = [] := by
      cases hLc : lstrip l with
      | nil => rfl
      | cons c t =>
        have h1 := rstrip_eq_nil_ws (l := lstrip l) hq
        have h2 := h1 c (by rw [hLc]; exact List.mem_cons_self c t)
        rw [lstrip_head_not_ws hLc] at h2
        cases h2
    have hpws : ∀ c ∈ l, c.isWhitespace = true := lstrip_eq_nil_ws hl
    calc pyStrip (rstrip l) = pyStrip [] := by rw [ws_rstrip_eq_nil hpws]
      _ = [] := rfl
      _ = pyStrip l := hq.symm
  · obtain ⟨a, ha, he⟩ := lstrip_decomp l
    have hRq : rstrip l = a ++ pyStrip l := by
      calc rstrip l = rstrip (a ++ lstrip l) := by rw [← he]
        _ = a ++ pyStrip l := rstrip_append_of_ne_nil a hq
    calc pyStrip (rstrip l) = pyStrip (a ++ pyStrip l) := by rw [hRq]
      _ = pyStrip (pyStrip l) := pyStrip_ws_append _ ha
      _ = pyStrip l := pyStrip_idem l

theorem cleanLLMResponse_eq {s s1 s2 s3 s4 : PyStr}
    (h1 : pyStrip s = s1)
    (h2 : (if ("```json".toList).isPrefixOf s1 = true then s1.drop 7 else s1) = s2)
    (h3 : (if ("```".toList).isPrefixOf s2 = true then s2.drop 3 else s2) = s3)
    (h4 : (if ("```".toList).isSuffixOf s3 = true then pyDropRight 3 s3 else s3) = s4) :
    cleanLLMResponse s = pyStrip s4 := by
  simp only [cleanLLMResponse, h1, h2, h3, h4]

set_option maxHeartbeats 1600000 in
theorem cleanLLMResponse_fenceWrap (tag lead trail : Bool) {ws1 ws2 p : PyStr}
    (hws1 : ∀ c ∈ ws1, c.isWhitespace = true) (hws2 : ∀ c ∈ ws2, c.isWhitespace = true)
    (hq : pyStrip p ≠ [])
    (hpre : ∀ c, (lstrip p).head? = some c → c ≠ Char.ofNat 96)
    (hsuf : ∀ c, (rstrip p).getLast? = some c → c ≠ Char.ofNat 96) :
    cleanLLMResponse (fenceWrap tag lead trail ws1 ws2 p) = pyStrip p := by
  have hL : lstrip p ≠ [] := pyStrip_lstrip_ne_nil hq
  have hR : rstrip p ≠ [] := pyStrip_rstrip_ne_nil hq
  obtain ⟨c, L', hLc⟩ : ∃ c L', lstrip p = c :: L' := by
    cases hx : lstrip p with
    | nil => exact absurd hx hL
    | cons c t => exact ⟨c, t, rfl⟩
  have hcb : c ≠ Char.ofNat 96 := hpre c (by rw [hLc]; rfl)
  obtain ⟨d, hd, hdb⟩ : ∃ d, (rstrip p).getLast? = some d ∧ d ≠ Char.ofNat 96 := by
    cases hgl : (rstrip p).getLast? with
    | none => exact absurd (List.getLast?_isSome.mpr hR) (by rw [hgl]; simp)
    | some d => exact ⟨d, rfl, hsuf d hgl⟩
  have hnlR : ('\n' :: rstrip p).getLast? = some d := by
    rw [show ('\n' :: rstrip p) = ['\n'] ++ rstrip p from rfl, List.getLast?_append, hd,
      Option.or_some]
  have hfinB : pyStrip ('\n' :: rstrip p) = pyStrip p := by
    rw [pyStrip_cons_ws _ (by decide), pyStrip_rstrip]
  have hLhead : ∀ X : PyStr, (lstrip p ++ X).head? = some c := by
    intro X
    rw [List.head?_append_of_ne_nil _ hL, hLc]
    rfl
  cases lead with
  | true =>
    cases trail with
    | true =>
      have h1 : ∀ F : PyStr, lstrip F = F → F ≠ [] →
          pyStrip (ws1 ++ ((F ++ ['\n']) ++ (p ++ (('\n' :: "```".toList) ++ ws2))))
            = F ++ ('\n' :: (p ++ ('\n' :: "```".toList))) := by
        intro F hF hFne
        simp only [pyStrip]
        rw [lstrip_ws_append _ hws1,
          lstrip_append_of_ne_nil _ (by
            rw [lstrip_append_of_ne_nil _ (by rw [hF]; exact hFne), hF]
            exact fun hc2 => hFne (by simpa using hc2)),
          lstrip_append_of_ne_nil _ (by rw [hF]; exact hFne), hF,
          show (F ++ ['\n']) ++ (p ++ (('\n' :: "```".toList) ++ ws2))
              = (((F ++ ['\n']) ++ p) ++ ('\n' :: "```".toList)) ++ ws2 from by
            simp [List.append_assoc],
          rstrip_ws_append _ hws2,
          rstrip_append_of_ne_nil _ (by decide : rstrip ('\n' :: "```".toList) ≠ []),
          (by decide : rstrip ('\n' :: "```".toList) = '\n' :: "```".toList)]
        simp [List.append_assoc]
      have h4 : (if ("```".toList).isSuffixOf ('\n' :: (p ++ ('\n' :: "```".toList))) = true
          then pyDropRight 3 ('\n' :: (p ++ ('\n' :: "```".toList)))
          else '\n' :: (p ++ ('\n' :: "```".toList))) = '\n' :: (p ++ ['\n']) := by
        rw [show '\n' :: (p ++ ('\n' :: "```".toList))
            = ('\n' :: (p ++ ['\n'])) ++ "```".toList from by simp,
          ite_of_true (isSuffixOf_append_self _ _)]
        exact pyDropRight_append _ (by decide)
      have hfinA : pyStrip ('\n' :: (p ++ ['\n'])) = pyStrip p := by
        rw [pyStrip_cons_ws _ (by decide), pyStrip_append_ws _ (by
          intro x hx
          rcases List.mem_singleton.mp hx with rfl
          decide)]
      cases tag with
      | true =>
        rw [show fenceWrap true true true ws1 ws2 p
            = ws1 ++ (("```json".toList ++ ['\n']) ++ (p ++ (('\n' :: "```".toList) ++ ws2)))
          from by simp [fenceWrap, List.append_assoc]]
        refine (@cleanLLMResponse_eq _ _ ('\n' :: (p ++ ('\n' :: "```".toList))) _ _
          (h1 ("```json".toList) (by decide) (by decide)) ?_ ?_ h4).trans hfinA
        · rw [ite_of_true (isPrefixOf_append_self _ _)]
          exact drop_append_of_length _ (by decide)
        · exact ite_of_false (fence_head_mismatch
            (show ('\n' :: (p ++ ('\n' :: "```".toList))).head? = some '\n' from rfl)
            (by decide)) _ _
      | false =>
        rw [show fenceWrap false true true ws1 ws2 p
            = ws1 ++ (("```".toList ++ ['\n']) ++ (p ++ (('\n' :: "```".toList) ++ ws2)))
          from by simp [fenceWrap, List.append_assoc]]
        refine (@cleanLLMResponse_eq _ _
          ("```".toList ++ ('\n' :: (p ++ ('\n' :: "```".toList)))) _ _
          (h1 ("```".toList) (by decide) (by decide)) ?_ ?_ h4).trans hfinA
        · exact ite_of_false (fence_tagged_plain_mismatch _) _ _
        · rw [ite_of_true (isPrefixOf_append_self _ _)]
          exact drop_append_of_length _ (by decide)
    | false =>
      have h1 : ∀ F : PyStr, lstrip F = F → F ≠ [] →
          pyStrip (ws1 ++ ((F ++ ['\n']) ++ (p ++ ([] ++ ws2))))
            = F ++ ('\n' :: rstrip p) := by
        intro F hF hFne
        simp only [pyStrip, List.nil_append]
        rw [lstrip_ws_append _ hws1,
          lstrip_append_of_ne_nil _ (by
            rw [lstrip_append_of_ne_nil _ (by rw [hF]; exact hFne), hF]
            exact fun hc2 => hFne (by simpa using hc2)),
          lstrip_append_of_ne_nil _ (by rw [hF]; exact hFne), hF,
          show (F ++ ['\n']) ++ (p ++ ws2) = ((F ++ ['\n']) ++ p) ++ ws2 from by
            simp [List.append_assoc],
          rstrip_ws_append _ hws2,
          rstrip_append_of_ne_nil _ hR]
        simp [List.append_assoc]
      have h4 : (if ("```".toList).isSuffixOf ('\n' :: rstrip p) = true
          then pyDropRight 3 ('\n' :: rstrip p)
          else '\n' :: rstrip p) = '\n' :: rstrip p :=
        ite_of_false (fence_not_suffix hnlR hdb) _ _
      cases tag with
      | true =>
        rw [show fenceWrap true true false ws1 ws2 p
            = ws1 ++ (("```json".toList ++ ['\n']) ++ (p ++ ([] ++ ws2)))
          from by simp [fenceWrap, List.append_assoc]]
        refine (@cleanLLMResponse_eq _ _ ('\n' :: rstrip p) _ _
          (h1 ("```json".toList) (by decide) (by decide)) ?_ ?_ h4).trans hfinB
        · rw [ite_of_true (isPrefixOf_append_self _ _)]
          exact drop_append_of_length _ (by decide)
        · exact ite_of_false (fence_head_mismatch
            (show ('\n' :: rstrip p).head? = some '\n' from rfl) (by decide)) _ _
      | false =>
        rw [show fenceWrap false true false ws1 ws2 p
            = ws1 ++ (("```".toList ++ ['\n']) ++ (p ++ ([] ++ ws2)))
          from by simp [fenceWrap, List.append_assoc]]
        refine (@cleanLLMResponse_eq _ _ ("```".toList ++ ('\n' :: rstrip p)) _ _
          (h1 ("```".toList) (by decide) (by decide)) ?_ ?_ h4).trans hfinB
        · exact ite_of_false (fence_tagged_plain_mismatch _) _ _
        · rw [ite_of_true (isPrefixOf_append_self _ _)]
          exact drop_append_of_length _ (by decide)
  | false =>
    cases trail with
    | true =>
      have h1 : pyStrip (ws1 ++ ([] ++ (p ++ (('\n' :: "```".toList) ++ ws2))))
          = lstrip p ++ ('\n' :: "```".toList) := by
        simp only [pyStrip, List.nil_append]
        rw [lstrip_ws_append _ hws1, lstrip_append_of_ne_nil _ hL,
          show lstrip p ++ (('\n' :: "```".toList) ++ ws2)
              = (lstrip p ++ ('\n' :: "```".toList)) ++ ws2 from by simp [List.append_assoc],
          rstrip_ws_append _ hws2,
          rstrip_append_of_ne_nil _ (by decide : rstrip ('\n' :: "```".toList) ≠ []),
          (by decide : rstrip ('\n' :: "```".toList) = '\n' :: "```".toList)]
      have h2 : (if ("```json".toList).isPrefixOf (lstrip p ++ ('\n' :: "```".toList)) = true
          then (lstrip p ++ ('\n' :: "```".toList)).drop 7
          else lstrip p ++ ('\n' :: "```".toList)) = lstrip p ++ ('\n' :: "```".toList) :=
        ite_of_false (fence_tagged_head_mismatch (hLhead _) hcb) _ _
      have h3 : (if ("```".toList).isPrefixOf (lstrip p ++ ('\n' :: "```".toList)) = true
          then (lstrip p ++ ('\n' :: "```".toList)).drop 3
          else lstrip p ++ ('\n' :: "```".toList)) = lstrip p ++ ('\n' :: "```".toList) :=
        ite_of_false (fence_head_mismatch (hLhead _) hcb) _ _
      have h4 : (if ("```".toList).isSuffixOf (lstrip p ++ ('\n' :: "```".toList)) = true
          then pyDropRight 3 (lstrip p ++ ('\n' :: "```".toList))
          else lstrip p ++ ('\n' :: "```".toList)) = lstrip p ++ ['\n'] := by
        rw [show lstrip p ++ ('\n' :: "```".toList)
            = (lstrip p ++ ['\n']) ++ "```".toList from by simp,
          ite_of_true (isSuffixOf_append_self _ _)]
        exact pyDropRight_append _ (by decide)
      have hfin : pyStrip (lstrip p ++ ['\n']) = pyStrip p := by
        rw [pyStrip_append_ws _ (by
          intro x hx
          rcases List.mem_singleton.mp hx with rfl
          decide), pyStrip_lstrip_eq]
      cases tag with
      | true =>
        rw [show fenceWrap true false true ws1 ws2 p
            = ws1 ++ ([] ++ (p ++ (('\n' :: "```".toList) ++ ws2)))
          from by simp [fenceWrap, List.append_assoc]]
        exact (cleanLLMResponse_eq h1 h2 h3 h4).trans hfin
      | false =>
        rw [show fenceWrap false false true ws1 ws2 p
            = ws1 ++ ([] ++ (p ++ (('\n' :: "```".toList) ++ ws2)))
          from by simp [fenceWrap, List.append_assoc]]
        exact (cleanLLMResponse_eq h1 h2 h3 h4).trans hfin
    | false =>
      have h1 : pyStrip (ws1 ++ ([] ++ (p ++ ([] ++ ws2)))) = pyStrip p := by
        simp only [List.nil_append]
        rw [pyStrip_ws_append _ hws1, pyStrip_append_ws _ hws2]
      have hhead : (pyStrip p).head? = some c := by rw [pyStrip_head_aux hq, hLc]; rfl
      have hlast : (pyStrip p).getLast? = some d := by rw [pyStrip_getLast_aux hq, hd]
      have h2 : (if ("```json".toList).isPrefixOf (pyStrip p) = true
          then (pyStrip p).drop 7 else pyStrip p) = pyStrip p :=
        ite_of_false (fence_tagged_head_mismatch hhead hcb) _ _
      have h3 : (if ("```".toList).isPrefixOf (pyStrip p) = true
          then (pyStrip p).drop 3 else pyStrip p) = pyStrip p :=
        ite_of_false (fence_head_mismatch hhead hcb) _ _
      have h4 : (if ("```".toList).isSuffixOf (pyStrip p) = true
          then pyDropRight 3 (pyStrip p) else pyStrip p) = pyStrip p :=
        ite_of_false (fence_not_suffix hlast hdb) _ _
      cases tag with
      | true =>
        rw [show fenceWrap true false false ws1 ws2 p = ws1 ++ ([] ++ (p ++ ([] ++ ws2)))
          from by simp [fenceWrap, List.append_assoc]]
        exact (cleanLLMResponse_eq h1 h2 h3 h4).trans (pyStrip_idem p)
      | false =>
        rw [show fenceWrap false false false ws1 ws2 p = ws1 ++ ([] ++ (p ++ ([] ++ ws2)))
          from by simp [fenceWrap, List.append_assoc]]
        exact (cleanLLMResponse_eq h1 h2 h3 h4).trans (pyStrip_idem p)

theorem extract_with_newspaper_long {w : World} {u t : PyStr} {d : PyVal}
    (h : extract_with_newspaper w u = .ret (some t, d)) : 100 < t.length := by
  unfold extract_with_newspaper at h
  cases hf : w.newspaperFetch u with
  | exn e =>
    rw [hf] at h
    simp only [PyResult.bind, pyTry] at h
    split at h <;> simp_all
  | ret article =>
    rw [hf] at h
    simp only [PyResult.bind] at h
    cases ht : article.text with
    | none => simp [ht, pyTry] at h
    | some t0 =>
      simp only [ht] at h
      by_cases h0 : t0.isEmpty
      · simp [h0, pyTry] at h
      · by_cases hlen : 100 < (pyStrip t0).length
        · simp only [h0, Bool.false_eq_true, if_false, hlen, if_true, pyTry,
            PyResult.ret.injEq, Prod.mk.injEq, Option.some.injEq] at h
          rcases h with ⟨h1, h2⟩
          rw [← h1]
          exact hlen
        · simp [h0, hlen, pyTry] at h

theorem extract_with_trafilatura_long {w : World} {u t : PyStr} {d : PyVal}
    (h : extract_with_trafilatura w u = .ret (some t, d)) : 100 < t.length := by
  unfold extract_with_trafilatura at h
  cases hf : w.trafilaturaFetchUrl u with
  | exn e =>
    rw [hf] at h
    simp only [PyResult.bind, pyTry] at h
    split at h <;> simp_all
  | ret downloaded =>
    rw [hf] at h
    simp only [PyResult.bind] at h
    cases downloaded with
    | none => simp [pyTry] at h
    | some content =>
      by_cases hce : content.isEmpty
      · simp [hce, pyTry] at h
      · simp only [hce, Bool.false_eq_true, if_false] at h
        cases hx : w.trafilaturaExtract content with
        | exn e =>
          rw [hx] at h
          simp only [PyResult.bind, pyTry] at h
          split at h <;> simp_all
        | ret text =>
          rw [hx] at h
          simp only [PyResult.bind] at h
          cases hm : w.trafilaturaMetadata content with
          | exn e =>
            rw [hm] at h
            simp only [PyResult.bind, pyTry] at h
            split at h <;> simp_all
          | ret metadata =>
            rw [hm] at h
            simp only [PyResult.bind] at h
            cases text with
            | none => simp [pyTry] at h
            | some t0 =>
              by_cases hlen : 100 < t0.length
              · simp only [hlen, if_true, pyTry, PyResult.ret.injEq, Prod.mk.injEq,
                  Option.some.injEq] at h
                rcases h with ⟨h1, h2⟩
                rw [← h1]
                exact hlen
              · simp [hlen, pyTry] at h

theorem parse_llm_response_long {w : World} {r t : PyStr} {d : PyVal}
    (h : parse_llm_response w r = .ret (some t, d)) : 100 < t.length := by
  unfold parse_llm_response at h
  cases hj : w.jsonLoads (cleanLLMResponse r) with
  | exn e =>
    rw [hj] at h
    simp [PyResult.bind] at h
  | ret result =>
    rw [hj] at h
    simp only [PyResult.bind] at h
    cases hg : pyValGet result ("text".toList) (.vstr []) with
    | exn e =>
      rw [hg] at h
      simp [PyResult.bind] at h
    | ret textRaw =>
      rw [hg] at h
      simp only [PyResult.bind] at h
      cases hs : pyValStrip textRaw with
      | exn e =>
        rw [hs] at h
        simp [PyResult.bind] at h
      | ret textStripped =>
        rw [hs] at h
        simp only [PyResult.bind] at h
        cases hd2 : pyValGet result ("date".toList) .none with
        | exn e =>
          rw [hd2] at h
          simp [PyResult.bind] at h
        | ret dateV =>
          rw [hd2] at h
          simp only [PyResult.bind] at h
          cases textStripped with
          | vstr t0 =>
            by_cases hlen : 100 < t0.length
            · simp only [hlen, if_true, PyResult.ret.injEq, Prod.mk.injEq,
                Option.some.injEq] at h
              rcases h with ⟨h1, h2⟩
              rw [← h1]
              exact hlen
            · simp [hlen] at h
          | none => simp at h
          | vint n => simp at h
          | vbool b => simp at h
          | vlist xs => simp at h
          | vdict kvs => simp at h

theorem extract_with_gemini_long {w : World} {u t : PyStr} {d : PyVal}
    (h : extract_with_gemini w u = .ret (some t, d)) : 100 < t.length := by
  unfold extract_with_gemini at h
  cases hf : w.httpGet u with
  | exn e =>
    rw [hf] at h
    simp only [PyResult.bind, pyTry] at h
    split at h <;> simp_all
  | ret html =>
    rw [hf] at h
    simp only [PyResult.bind] at h
    cases hl : w.llmQuery (geminiPrompt html) with
    | exn e =>
      rw [hl] at h
      simp only [PyResult.bind, pyTry] at h
      split at h <;> simp_all
    | ret resp =>
      rw [hl] at h
      simp only [PyResult.bind] at h
      cases hp : parse_llm_response w resp with
      | exn e =>
        rw [hp] at h
        simp only [pyTry] at h
        split at h <;> simp_all
      | ret pr =>
        rw [hp] at h
        simp only [pyTry, PyResult.ret.injEq] at h
        rw [h] at hp
        exact parse_llm_response_long hp

theorem normalize_date_total {w : World} {v : PyVal}
    (hw : ∀ e, w.dateParse v = .exn e → e = .valueError ∨ e = .typeError) :
    ∃ o, normalize_date w v = .ret o := by
  unfold normalize_date
  by_cases ht : v.truthy
  · simp only [ht, if_true]
    cases hp : w.dateParse v with
    | ret dd => exact ⟨_, rfl⟩
    | exn e =>
      rcases hw e hp with rfl | rfl
      · exact ⟨Option.none, by simp⟩
      · exact ⟨Option.none, by simp⟩
  · simp [ht]

theorem extract_from_url_trace_fst (w : World) (url : PyVal) (idValue : PyStr) :
    (extract_from_url_trace w url idValue).1 = extract_from_url w url idValue := by
  unfold extract_from_url extract_from_url_trace
  by_cases hv : urlInvalid url
  · simp [hv]
  · simp only [hv, Bool.false_eq_true, if_false]
    cases h1 : extract_with_newspaper w (pyStrip (strContent url)) with
    | exn e => simp [PyResult.bind]
    | ret rn =>
      simp only [PyResult.bind]
      by_cases ht1 : optTruthy rn.1
      · simp only [ht1, if_true]
        cases h2 : normalize_date w rn.2 with
        | exn e => simp [PyResult.bind]
        | ret nd => simp [PyResult.bind]
      · simp only [ht1, Bool.false_eq_true, if_false]
        cases h3 : extract_with_trafilatura w (pyStrip (strContent url)) with
        | exn e => simp [PyResult.bind]
        | ret rt =>
          simp only [PyResult.bind]
          by_cases ht2 : optTruthy rt.1
          · simp only [ht2, if_true]
            cases h4 : normalize_date w rt.2 with
            | exn e => simp [PyResult.bind]
            | ret nd => simp [PyResult.bind]
          · simp only [ht2, Bool.false_eq_true, if_false]
            cases h5 : extract_with_gemini w (pyStrip (strContent url)) with
            | exn e => simp [PyResult.bind]
            | ret rg =>
              simp only [PyResult.bind]
              by_cases ht3 : optTruthy rg.1
              · simp only [ht3, if_true]
                cases h6 : normalize_date w rg.2 with
                | exn e => simp [PyResult.bind]
                | ret nd => simp [PyResult.bind]
              · simp only [ht3, Bool.false_eq_true, if_false]

/-- C4: for every input URL that is None, not a string, empty, or
whitespace-only, extract_from_url immediately returns (does not raise) the
error result with message "Empty or invalid URL", and the attempted-stage
trace is empty: none of the three extractors is invoked. -/
theorem extract_from_url_invalid_url (w : World) (url : PyVal) (idValue : PyStr)
    (h : url = PyVal.none ∨ (∀ s, url ≠ PyVal.vstr s) ∨ url = PyVal.vstr [] ∨
      (∃ s, url = PyVal.vstr s ∧ pyStrip s = [])) :
    extract_from_url_trace w url idValue =
      (.ret (ExtractionResult.create_error idValue (pyOrEmpty url)
        ("Empty or invalid URL".toList)), []) ∧
    extract_from_url w url idValue =
      .ret (ExtractionResult.create_error idValue (pyOrEmpty url)
        ("Empty or invalid URL".toList)) := by
  have hv : urlInvalid url = true := by
    rcases h with rfl | hns | rfl | ⟨s, rfl, hs⟩
    · rfl
    · cases url with
      | vstr s => exact absurd rfl (hns s)
      | none => rfl
      | vint n => rfl
      | vbool b => rfl
      | vlist xs => rfl
      | vdict kvs => rfl
    · rfl
    · simp [urlInvalid, hs]
  constructor
  · simp [extract_from_url_trace, hv]
  · simp [extract_from_url, hv]

theorem extract_from_url_invalid_url_witness :
    (PyVal.none = PyVal.none ∨ (∀ s, PyVal.none ≠ PyVal.vstr s) ∨
      PyVal.none = PyVal.vstr [] ∨
      (∃ s, PyVal.none = PyVal.vstr s ∧ pyStrip s = [])) ∧
    (extract_from_url_trace wAllFail PyVal.none ("id7".toList) =
      (.ret (ExtractionResult.create_error ("id7".toList) (pyOrEmpty PyVal.none)
        ("Empty or invalid URL".toList)), []) ∧
    extract_from_url wAllFail PyVal.none ("id7".toList) =
      .ret (ExtractionResult.create_error ("id7".toList) (pyOrEmpty PyVal.none)
        ("Empty or invalid URL".toList))) :=
  ⟨Or.inl rfl, extract_from_url_invalid_url wAllFail PyVal.none ("id7".toList) (Or.inl rfl)⟩

/-- C3: for every non-empty (after stripping) URL string on which all three
stages return no qualifying text, extract_from_url returns (does not raise)
an error result with message "All extraction methods failed" and all
optional fields absent, after attempting all three stages in order. -/
theorem extract_from_url_all_failed (w : World) (s idValue : PyStr) (d1 d2 d3 : PyVal)
    (hs : pyStrip s ≠ [])
    (h1 : extract_with_newspaper w (pyStrip s) = .ret (Option.none, d1))
    (h2 : extract_with_trafilatura w (pyStrip s) = .ret (Option.none, d2))
    (h3 : extract_with_gemini w (pyStrip s) = .ret (Option.none, d3)) :
    ∃ r, extract_from_url w (.vstr s) idValue = .ret r ∧
      extract_from_url_trace w (.vstr s) idValue = (.ret r, stageOrder) ∧
      r.status = "error".toList ∧
      r.error_message = some ("All extraction methods failed".toList) ∧
      r.extracted_text = Option.none ∧
      r.publication_date = Option.none ∧
      r.extraction_method = Option.none := by
  have hv : urlInvalid (.vstr s) = false := by
    simp [urlInvalid, hs]
  refine ⟨ExtractionResult.create_error idValue (.vstr (pyStrip s))
    ("All extraction methods failed".toList), ?_, ?_, rfl, rfl, rfl, rfl, rfl⟩
  · simp only [extract_from_url, hv, Bool.false_eq_true, if_false, strContent]
    rw [h1]
    simp only [PyResult.bind, optTruthy, Bool.false_eq_true, if_false]
    rw [h2]
    simp only [PyResult.bind, optTruthy, Bool.false_eq_true, if_false]
    rw [h3]
    simp only [PyResult.bind, optTruthy, Bool.false_eq_true, if_false]
  · simp only [extract_from_url_trace, hv, Bool.false_eq_true, if_false, strContent]
    rw [h1, h2, h3]
    simp only [optTruthy, Bool.false_eq_true, if_false, stageOrder]

theorem extract_from_url_all_failed_witness :
    pyStrip ("http://x".toList) ≠ [] ∧
    extract_with_newspaper wAllFail (pyStrip ("http://x".toList)) = .ret (Option.none, .none) ∧
    extract_with_trafilatura wAllFail (pyStrip ("http://x".toList)) = .ret (Option.none, .none) ∧
    extract_with_gemini wAllFail (pyStrip ("http://x".toList)) = .ret (Option.none, .none) ∧
    (∃ r, extract_from_url wAllFail (.vstr ("http://x".toList)) ("id3".toList) = .ret r ∧
      extract_from_url_trace wAllFail (.vstr ("http://x".toList)) ("id3".toList) =
        (.ret r, stageOrder) ∧
      r.status = "error".toList ∧
      r.error_message = some ("All extraction methods failed".toList) ∧
      r.extracted_text = Option.none ∧
      r.publication_date = Option.none ∧
      r.extraction_method = Option.none) :=
  ⟨by decide, rfl, rfl, rfl,
    extract_from_url_all_failed wAllFail ("http://x".toList) ("id3".toList)
      PyVal.none PyVal.none PyVal.none (by decide) rfl rfl rfl⟩

/-- C2: every ExtractionResult that extract_from_url returns satisfies the
record invariant: on status success the extracted text is present with
length strictly over 100 and the extraction method is set; on status error
the extracted text, publication date and extraction method are all absent. -/
theorem extract_result_invariant (w : World) (url : PyVal) (idValue : PyStr)
    (r : ExtractionResult) (h : extract_from_url w url idValue = .ret r) :
    (r.status = "success".toList →
      (∃ t, r.extracted_text = some t ∧ 100 < t.length) ∧
        r.extraction_method ≠ Option.none) ∧
    (r.status = "error".toList →
      r.extracted_text = Option.none ∧ r.publication_date = Option.none ∧
        r.extraction_method = Option.none) := by
  unfold extract_from_url at h
  split at h
  · injection h with h
    subst h
    refine ⟨fun hst => ?_, fun _ => ⟨rfl, rfl, rfl⟩⟩
    simp only [ExtractionResult.create_error] at hst
    exact absurd hst (by decide)
  · simp only [] at h
    cases h1 : extract_with_newspaper w (pyStrip (strContent url)) with
    | exn e =>
      rw [h1] at h
      exact absurd h (by simp [PyResult.bind])
    | ret rn =>
      rw [h1] at h
      simp only [PyResult.bind] at h
      split at h
      case isTrue ht1 =>
        cases h2 : normalize_date w rn.2 with
        | exn e =>
          rw [h2] at h
          exact absurd h (by simp [PyResult.bind])
        | ret nd =>
          rw [h2] at h
          simp only [PyResult.bind] at h
          injection h with h
          subst h
          refine ⟨fun _ => ⟨?_, by simp⟩, fun hst =>
            absurd (show "success".toList = "error".toList from hst) (by decide)⟩
          cases hx : rn.1 with
          | none =>
            rw [hx] at ht1
            exact absurd ht1 (by simp [optTruthy])
          | some t =>
            exact ⟨t, by simp [hx], extract_with_newspaper_long (by rw [h1, ← hx])⟩
      case isFalse ht1 =>
        cases h3 : extract_with_trafilatura w (pyStrip (strContent url)) with
        | exn e =>
          rw [h3] at h
          exact absurd h (by simp [PyResult.bind])
        | ret rt =>
          rw [h3] at h
          simp only [PyResult.bind] at h
          split at h
          case isTrue ht2 =>
            cases h4 : normalize_date w rt.2 with
            | exn e =>
              rw [h4] at h
              exact absurd h (by simp [PyResult.bind])
            | ret nd =>
              rw [h4] at h
              simp only [PyResult.bind] at h
              injection h with h
              subst h
              refine ⟨fun _ => ⟨?_, by simp⟩, fun hst =>
            absurd (show "success".toList = "error".toList from hst) (by decide)⟩
              cases hx : rt.1 with
              | none =>
                rw [hx] at ht2
                exact absurd ht2 (by simp [optTruthy])
              | some t =>
                exact ⟨t, by simp [hx], extract_with_trafilatura_long (by rw [h3, ← hx])⟩
          case isFalse ht2 =>
            cases h5 : extract_with_gemini w (pyStrip (strContent url)) with
            | exn e =>
              rw [h5] at h
              exact absurd h (by simp [PyResult.bind])
            | ret rg =>
              rw [h5] at h
              simp only [PyResult.bind] at h
              split at h
              case isTrue ht3 =>
                cases h6 : normalize_date w rg.2 with
                | exn e =>
                  rw [h6] at h
                  exact absurd h (by simp [PyResult.bind])
                | ret nd =>
                  rw [h6] at h
                  simp only [PyResult.bind] at h
                  injection h with h
                  subst h
                  refine ⟨fun _ => ⟨?_, by simp⟩, fun hst =>
            absurd (show "success".toList = "error".toList from hst) (by decide)⟩
                  cases hx : rg.1 with
                  | none =>
                    rw [hx] at ht3
                    exact absurd ht3 (by simp [optTruthy])
                  | some t =>
                    exact ⟨t, by simp [hx], extract_with_gemini_long (by rw [h5, ← hx])⟩
              case isFalse ht3 =>
                injection h with h
                subst h
                exact ⟨fun hst =>
                  absurd (show "error".toList = "success".toList from hst) (by decide),
                  fun _ => ⟨rfl, rfl, rfl⟩⟩

theorem extract_result_invariant_witness :
    extract_from_url wNews (.vstr ("http://x".toList)) ("id2".toList) = .ret rNews ∧
    ((rNews.status = "success".toList →
      (∃ t, rNews.extracted_text = some t ∧ 100 < t.length) ∧
        rNews.extraction_method ≠ Option.none) ∧
    (rNews.status = "error".toList →
      rNews.extracted_text = Option.none ∧ rNews.publication_date = Option.none ∧
        rNews.extraction_method = Option.none)) :=
  ⟨rfl, extract_result_invariant wNews (.vstr ("http://x".toList)) ("id2".toList) rNews rfl⟩

/-- C1: for every valid URL on which stage k (in the fixed order newspaper,
trafilatura, gemini) returns qualifying text while every earlier stage
returns none, extract_from_url returns a success result whose
extraction_method names stage k, and the attempted-stage trace stops at k:
no later stage is attempted after the first success. -/
theorem extract_from_url_first_success (w : World) (s idValue : PyStr) (k : Fin 3)
    (t : PyStr) (d : PyVal)
    (hs : pyStrip s ≠ [])
    (hk : stageRun w (pyStrip s) (stageOrder.get k) = .ret (some t, d))
    (hprev : ∀ j : Fin 3, j < k →
      ∃ dj, stageRun w (pyStrip s) (stageOrder.get j) = .ret (Option.none, dj))
    (hdp : ∀ e, w.dateParse d = .exn e → e = PyExn.valueError ∨ e = PyExn.typeError) :
    ∃ r nd, normalize_date w d = .ret nd ∧
      extract_from_url w (.vstr s) idValue = .ret r ∧
      extract_from_url_trace w (.vstr s) idValue = (.ret r, stageOrder.take (k.val + 1)) ∧
      r.status = "success".toList ∧
      r.extraction_method = some (stageName (stageOrder.get k)) ∧
      r.extracted_text = some t ∧
      r.publication_date = nd := by
  have hv : urlInvalid (.vstr s) = false := by simp [urlInvalid, hs]
  obtain ⟨nd, hnd⟩ := normalize_date_total hdp
  fin_cases k
  · have hk1 : extract_with_newspaper w (pyStrip s) = .ret (some t, d) := hk
    have hlen := extract_with_newspaper_long hk1
    have hemp : t.isEmpty = false := by
      cases t with
      | nil => simp at hlen
      | cons a l => rfl
    refine ⟨
      { id_value := idValue
        url := .vstr (pyStrip s)
        extracted_text := some t
        publication_date := nd
        extraction_method := some ("newspaper".toList)
        status := "success".toList
        error_message := Option.none }, nd, hnd, ?_, ?_, rfl, rfl, rfl, rfl⟩
    · simp [extract_from_url, hv, strContent, hk1, PyResult.bind, optTruthy, hemp, hnd]
    · simp [extract_from_url_trace, hv, strContent, hk1, optTruthy, hemp, hnd, stageOrder]
  · obtain ⟨d0, h0⟩ := hprev ⟨0, by decide⟩ (by decide)
    have h01 : extract_with_newspaper w (pyStrip s) = .ret (Option.none, d0) := h0
    have hk1 : extract_with_trafilatura w (pyStrip s) = .ret (some t, d) := hk
    have hlen := extract_with_trafilatura_long hk1
    have hemp : t.isEmpty = false := by
      cases t with
      | nil => simp at hlen
      | cons a l => rfl
    refine ⟨
      { id_value := idValue
        url := .vstr (pyStrip s)
        extracted_text := some t
        publication_date := nd
        extraction_method := some ("trafilatura".toList)
        status := "success".toList
        error_message := Option.none }, nd, hnd, ?_, ?_, rfl, rfl, rfl, rfl⟩
    · simp [extract_from_url, hv, strContent, h01, hk1, PyResult.bind, optTruthy, hemp, hnd]
    · simp [extract_from_url_trace, hv, strContent, h01, hk1, optTruthy, hemp, hnd,
        stageOrder]
  · obtain ⟨d0, h0⟩ := hprev ⟨0, by decide⟩ (by decide)
    obtain ⟨d1, h1⟩ := hprev ⟨1, by decide⟩ (by decide)
    have h01 : extract_with_newspaper w (pyStrip s) = .ret (Option.none, d0) := h0
    have h11 : extract_with_trafilatura w (pyStrip s) = .ret (Option.none, d1) := h1
    have hk1 : extract_with_gemini w (pyStrip s) = .ret (some t, d) := hk
    have hlen := extract_with_gemini_long hk1
    have hemp : t.isEmpty = false := by
      cases t with
      | nil => simp at hlen
      | cons a l => rfl
    refine ⟨
      { id_value := idValue
        url := .vstr (pyStrip s)
        extracted_text := some t
        publication_date := nd
        extraction_method := some ("gemini".toList)
        status := "success".toList
        error_message := Option.none }, nd, hnd, ?_, ?_, rfl, rfl, rfl, rfl⟩
    · simp [extract_from_url, hv, strContent, h01, h11, hk1, PyResult.bind, optTruthy,
        hemp, hnd]
    · simp [extract_from_url_trace, hv, strContent, h01, h11, hk1, optTruthy, hemp, hnd,
        stageOrder]

theorem extract_from_url_first_success_witness :
    pyStrip ("http://x".toList) ≠ [] ∧
    stageRun wTraf (pyStrip ("http://x".toList)) Stage.trafilatura =
      .ret (some text101, PyVal.none) ∧
    (∃ r nd, normalize_date wTraf PyVal.none = .ret nd ∧
      extract_from_url wTraf (.vstr ("http://x".toList)) ("id4".toList) = .ret r ∧
      extract_from_url_trace wTraf (.vstr ("http://x".toList)) ("id4".toList) =
        (.ret r, [Stage.newspaper, Stage.trafilatura]) ∧
      r.status = "success".toList ∧
      r.extraction_method = some ("trafilatura".toList) ∧
      r.extracted_text = some text101 ∧
      r.publication_date = nd) :=
  ⟨by decide, rfl,
    extract_from_url_first_success wTraf ("http://x".toList) ("id4".toList) ⟨1, by decide⟩
      text101 PyVal.none (by decide) rfl
      (by
        intro j hj
        fin_cases j
        · exact ⟨PyVal.none, rfl⟩
        · exact absurd hj (by decide)
        · exact absurd hj (by decide))
      (by
        intro e h
        injection h with h2
        exact Or.inl h2.symm)⟩

/-- C5: counter-evidence to the claim that every error inside a stage is
caught there. When the LLM answers with valid JSON whose text field is
null, result.get("text", "").strip() raises AttributeError, which the
except clause of extract_with_gemini does not list, so the exception
escapes the stage and propagates out of extract_from_url as well. -/
theorem gemini_null_text_raises :
    extract_with_gemini wBad ("http://x".toList) = .exn .attributeError ∧
    extract_from_url wBad (.vstr ("http://x".toList)) ("id5".toList) =
      .exn .attributeError :=
  ⟨rfl, rfl⟩

/-- C7: normalize_date answers absent (None) rather than raising on a falsy
input such as None, on any non-string value, and on any string the date
collaborator cannot parse, provided the collaborator fails only with
ValueError or TypeError (as dateutil does: unparsable strings raise
ValueError, non-strings raise TypeError). -/
theorem normalize_date_no_raise (w : World) (v : PyVal)
    (hw : ∀ e, w.dateParse v = .exn e → e = PyExn.valueError ∨ e = PyExn.typeError)
    (hns : (∀ s, v ≠ PyVal.vstr s) → v.truthy = true → ∃ e, w.dateParse v = .exn e)
    (hv : v = PyVal.none ∨ (∀ s, v ≠ PyVal.vstr s) ∨ (∃ e, w.dateParse v = .exn e)) :
    normalize_date w v = .ret Option.none := by
  unfold normalize_date
  by_cases ht : v.truthy
  · simp only [ht, if_true]
    have hfail : ∃ e, w.dateParse v = .exn e := by
      rcases hv with rfl | hns2 | hf
      · exact absurd ht (by decide)
      · exact hns hns2 ht
      · exact hf
    obtain ⟨e, he⟩ := hfail
    rw [he]
    rcases hw e he with rfl | rfl
    · simp
    · simp
  · simp [ht]

theorem normalize_date_no_raise_witness :
    (∀ e, wAllFail.dateParse (.vint 5) = .exn e →
      e = PyExn.valueError ∨ e = PyExn.typeError) ∧
    (∀ s, PyVal.vint 5 ≠ PyVal.vstr s) ∧
    normalize_date wAllFail (.vint 5) = .ret Option.none :=
  ⟨fun e h => Or.inl (by injection h with h2; exact h2.symm),
   fun s h => PyVal.noConfusion h,
   normalize_date_no_raise wAllFail (.vint 5)
     (fun e h => Or.inl (by injection h with h2; exact h2.symm))
     (fun _ _ => ⟨.valueError, rfl⟩)
     (Or.inr (Or.inl (fun s h => PyVal.noConfusion h)))⟩

theorem digitChar_digitVal {c : Char} (h : c.isDigit = true) : digitChar (digitVal c) = c := by
  have hb : 48 ≤ c.toNat ∧ c.toNat ≤ 57 := by
    simp [Char.isDigit] at h
    obtain ⟨h1, h2⟩ := h
    unfold Char.toNat
    exact ⟨h1, h2⟩
  have he : 48 + digitVal c = c.toNat := by
    unfold digitVal
    omega
  rw [digitChar, he, Char.ofNat_toNat]

theorem digitVal_le {c : Char} (h : c.isDigit = true) : digitVal c ≤ 9 := by
  have hb : 48 ≤ c.toNat ∧ c.toNat ≤ 57 := by
    simp [Char.isDigit] at h
    obtain ⟨h1, h2⟩ := h
    unfold Char.toNat
    exact ⟨h1, h2⟩
  unfold digitVal
  omega

theorem isoformat_parseCanonical {s : PyStr} {d : Date}
    (h : parseCanonical s = some d) : d.isoformat = s := by
  match s with
  | [] => exact absurd h (by simp [parseCanonical])
  | [a] => exact absurd h (by simp [parseCanonical])
  | [a, b] => exact absurd h (by simp [parseCanonical])
  | [a, b, c] => exact absurd h (by simp [parseCanonical])
  | [a, b, c, e] => exact absurd h (by simp [parseCanonical])
  | [a, b, c, e, f] => exact absurd h (by simp [parseCanonical])
  | [a, b, c, e, f, g] => exact absurd h (by simp [parseCanonical])
  | [a, b, c, e, f, g, i] => exact absurd h (by simp [parseCanonical])
  | [a, b, c, e, f, g, i, j] => exact absurd h (by simp [parseCanonical])
  | [a, b, c, e, f, g, i, j, k] => exact absurd h (by simp [parseCanonical])
  | y1 :: y2 :: y3 :: y4 :: h1 :: m1 :: m2 :: h2 :: d1 :: d2 :: [] =>
    replace h : (if y1.isDigit = true ∧ y2.isDigit = true ∧ y3.isDigit = true ∧
        y4.isDigit = true ∧ h1 = '-' ∧ m1.isDigit = true ∧ m2.isDigit = true ∧
        h2 = '-' ∧ d1.isDigit = true ∧ d2.isDigit = true then
          some { year := digitVal y1 * 1000 + digitVal y2 * 100 + digitVal y3 * 10 + digitVal y4
                 month := digitVal m1 * 10 + digitVal m2
                 day := digitVal d1 * 10 + digitVal d2 }
        else Option.none) = some d := h
    by_cases hc : y1.isDigit = true ∧ y2.isDigit = true ∧ y3.isDigit = true ∧
        y4.isDigit = true ∧ h1 = '-' ∧ m1.isDigit = true ∧ m2.isDigit = true ∧
        h2 = '-' ∧ d1.isDigit = true ∧ d2.isDigit = true
    · rw [if_pos hc] at h
      obtain ⟨hy1, hy2, hy3, hy4, hh1, hm1, hm2, hh2, hd1, hd2⟩ := hc
      injection h with h
      subst h
      subst hh1
      subst hh2
      have e1 : (digitVal y1 * 1000 + digitVal y2 * 100 + digitVal y3 * 10 + digitVal y4)
          / 1000 % 10 = digitVal y1 := by
        have := digitVal_le hy1
        have := digitVal_le hy2
        have := digitVal_le hy3
        have := digitVal_le hy4
        omega
      have e2 : (digitVal y1 * 1000 + digitVal y2 * 100 + digitVal y3 * 10 + digitVal y4)
          / 100 % 10 = digitVal y2 := by
        have := digitVal_le hy1
        have := digitVal_le hy2
        have := digitVal_le hy3
        have := digitVal_le hy4
        omega
      have e3 : (digitVal y1 * 1000 + digitVal y2 * 100 + digitVal y3 * 10 + digitVal y4)
          / 10 % 10 = digitVal y3 := by
        have := digitVal_le hy1
        have := digitVal_le hy2
        have := digitVal_le hy3
        have := digitVal_le hy4
        omega
      have e4 : (digitVal y1 * 1000 + digitVal y2 * 100 + digitVal y3 * 10 + digitVal y4)
          % 10 = digitVal y4 := by
        have := digitVal_le hy1
        have := digitVal_le hy2
        have := digitVal_le hy3
        have := digitVal_le hy4
        omega
      have e5 : (digitVal m1 * 10 + digitVal m2) / 10 % 10 = digitVal m1 := by
        have := digitVal_le hm1
        have := digitVal_le hm2
        omega
      have e6 : (digitVal m1 * 10 + digitVal m2) % 10 = digitVal m2 := by
        have := digitVal_le hm1
        have := digitVal_le hm2
        omega
      have e7 : (digitVal d1 * 10 + digitVal d2) / 10 % 10 = digitVal d1 := by
        have := digitVal_le hd1
        have := digitVal_le hd2
        omega
      have e8 : (digitVal d1 * 10 + digitVal d2) % 10 = digitVal d2 := by
        have := digitVal_le hd1
        have := digitVal_le hd2
        omega
      simp only [Date.isoformat, pad4, pad2, e1, e2, e3, e4, e5, e6, e7, e8,
        digitChar_digitVal hy1, digitChar_digitVal hy2, digitChar_digitVal hy3,
        digitChar_digitVal hy4, digitChar_digitVal hm1, digitChar_digitVal hm2,
        digitChar_digitVal hd1, digitChar_digitVal hd2]
      rfl
    · rw [if_neg hc] at h
      cases h
  | y1 :: y2 :: y3 :: y4 :: h1 :: m1 :: m2 :: h2 :: d1 :: d2 :: c :: rest =>
    exact absurd h (by simp [parseCanonical])

/-- C8: normalize_date is idempotent on canonical dates: when the input is
already a canonical zero-padded dash-separated year-month-day string and
the date collaborator parses it to the date it denotes, normalize_date
returns the string unchanged. -/
theorem normalize_date_idempotent_canonical (w : World) (s : PyStr) (d : Date)
    (hp : parseCanonical s = some d)
    (hw : w.dateParse (.vstr s) = .ret d) :
    normalize_date w (.vstr s) = .ret (some s) := by
  have hs : s ≠ [] := by
    intro he
    rw [he] at hp
    exact absurd hp (by simp [parseCanonical])
  have htr : (PyVal.vstr s).truthy = true := by
    simp [PyVal.truthy, hs]
  unfold normalize_date
  rw [if_pos htr, hw]
  show PyResult.ret (some d.isoformat) = PyResult.ret (some s)
  rw [isoformat_parseCanonical hp]

theorem normalize_date_idempotent_canonical_witness :
    parseCanonical ("2024-01-05".toList) = some { year := 2024, month := 1, day := 5 } ∧
    wDate.dateParse (.vstr ("2024-01-05".toList)) =
      .ret { year := 2024, month := 1, day := 5 } ∧
    normalize_date wDate (.vstr ("2024-01-05".toList)) = .ret (some ("2024-01-05".toList)) :=
  ⟨by decide, rfl,
    normalize_date_idempotent_canonical wDate ("2024-01-05".toList)
      { year := 2024, month := 1, day := 5 } (by decide) rfl⟩

theorem pyMapM_ret {α β : Type} (f : α → PyResult β) (l : List α)
    (h : ∀ a ∈ l, ∃ b, f a = .ret b) :
    ∃ bs, pyMapM f l = .ret bs ∧ bs.length = l.length ∧
      ∀ i (hi : i < l.length) b, f l[i] = .ret b → bs[i]? = some b := by
  induction l with
  | nil => exact ⟨[], rfl, rfl, fun i hi => absurd hi (by simp)⟩
  | cons a as ih =>
    obtain ⟨b, hb⟩ := h a (List.mem_cons_self a as)
    obtain ⟨bs, hbs, hlen, hidx⟩ := ih (fun x hx => h x (List.mem_cons_of_mem a hx))
    refine ⟨b :: bs, ?_, by simp [hlen], ?_⟩
    · simp [pyMapM, hb, hbs, PyResult.bind]
    · intro i hi b2 hb2
      cases i with
      | zero =>
        rw [show ((a :: as)[0] : α) = a from rfl] at hb2
        rw [hb] at hb2
        injection hb2 with hb2
        simp [hb2]
      | succ n =>
        have hn : n < as.length := by
          simp only [List.length_cons] at hi
          omega
        rw [List.getElem?_cons_succ]
        exact hidx n hn b2 hb2

theorem flatMap_map_length {α β γ : Type} (rows : List α) (cols : List β) (f : α → β → γ) :
    (rows.flatMap fun r => cols.map (f r)).length = rows.length * cols.length := by
  induction rows with
  | nil => simp
  | cons r rs ih =>
    rw [List.flatMap_cons, List.length_append, List.length_map, ih, List.length_cons,
      Nat.succ_mul, Nat.add_comm]

theorem flatMap_map_get {α β γ : Type} (rows : List α) (cols : List β) (f : α → β → γ)
    (i j : Nat) (hi : i < rows.length) (hj : j < cols.length) :
    (rows.flatMap fun r => cols.map (f r))[i * cols.length + j]? =
      some (f rows[i] cols[j]) := by
  induction rows generalizing i with
  | nil => cases hi
  | cons r rs ih =>
    rw [List.flatMap_cons]
    cases i with
    | zero =>
      rw [Nat.zero_mul, Nat.zero_add,
        List.getElem?_append_left (by rw [List.length_map]; exact hj),
        List.getElem?_map, List.getElem?_eq_getElem hj]
      rfl
    | succ n =>
      have hn : n < rs.length := by
        simp only [List.length_cons] at hi
        omega
      rw [show (n + 1) * cols.length + j
          = (cols.map (f r)).length + (n * cols.length + j) from by
        rw [List.length_map, Nat.succ_mul]
        ring]
      rw [List.getElem?_append_right (Nat.le_add_right _ _), Nat.add_sub_cancel_left]
      exact ih n hn

/-- Supporting lemma: when the configured identifier column and all URL
columns exist and every extraction call returns, process_csv produces
exactly rows times URL-columns output rows — error rows included — ordered
with the outer loop over input rows and the inner loop over the configured
URL columns: the output row at position i times M plus j is the rendering
of the extraction result for input row i and URL column j. This is the
intended batch contract; the theorem below shows the code does not meet it
unconditionally. -/
theorem process_csv_row_count (w : World) (df : DataFrame) (cfg : Config)
    (hid : cfg.id_column ∈ df.columns)
    (hcols : ∀ c ∈ cfg.url_columns, c ∈ df.columns)
    (hcalls : ∀ pr ∈ csvPairs df cfg, ∃ r, extract_from_url w pr.1 pr.2 = .ret r) :
    ∃ out, process_csv w df cfg = .ret out ∧
      out.length = df.rows.length * cfg.url_columns.length ∧
      ∀ i j (hi : i < df.rows.length) (hj : j < cfg.url_columns.length) r,
        extract_from_url w (rowGet df.rows[i] cfg.url_columns[j])
          (pyStrOf (rowGet df.rows[i] cfg.id_column)) = .ret r →
        out[i * cfg.url_columns.length + j]? = some (outputRow r) := by
  obtain ⟨results, hres, hlen, hidx⟩ :=
    pyMapM_ret (fun pr => extract_from_url w pr.1 pr.2) (csvPairs df cfg) hcalls
  have hfil : (cfg.url_columns.filter (fun c => !(df.columns.contains c))).isEmpty = true := by
    rw [List.isEmpty_iff, List.filter_eq_nil_iff]
    intro c hc
    simp [hcols c hc]
  have hplen : (csvPairs df cfg).length = df.rows.length * cfg.url_columns.length := by
    unfold csvPairs
    exact flatMap_map_length _ _ _
  refine ⟨results.map outputRow, ?_, ?_, ?_⟩
  · unfold process_csv
    rw [if_pos hid, if_pos hfil, hres]
    rfl
  · rw [List.length_map, hlen, hplen]
  · intro i j hi hj r hr
    have hp := flatMap_map_get df.rows cfg.url_columns
      (fun row c => (rowGet row c, pyStrOf (rowGet row cfg.id_column))) i j hi hj
    have hp2 : (csvPairs df cfg)[i * cfg.url_columns.length + j]? =
        some (rowGet df.rows[i] cfg.url_columns[j],
          pyStrOf (rowGet df.rows[i] cfg.id_column)) := hp
    obtain ⟨hlt, hval⟩ := List.getElem?_eq_some_iff.mp hp2
    have hfr : extract_from_url w ((csvPairs df cfg)[i * cfg.url_columns.length + j]).1
        ((csvPairs df cfg)[i * cfg.url_columns.length + j]).2 = .ret r := by
      rw [hval]
      exact hr
    have hout := hidx (i * cfg.url_columns.length + j) hlt r hfr
    rw [List.getElem?_map, hout]
    rfl

/-- C10: when the configured identifier column or any configured URL column
is missing from the input table, process_csv raises ValueError before any
extraction call is made and produces no output table at all. -/
theorem process_csv_missing_column_aborts (w : World) (df : DataFrame) (cfg : Config)
    (h : cfg.id_column ∉ df.columns ∨ ∃ c ∈ cfg.url_columns, c ∉ df.columns) :
    process_csv_trace w df cfg = (.exn .valueError, []) ∧
    process_csv w df cfg = .exn .valueError := by
  by_cases hid : cfg.id_column ∈ df.columns
  · obtain ⟨c, hc, hnc⟩ : ∃ c ∈ cfg.url_columns, c ∉ df.columns := by
      rcases h with hid2 | hex
      · exact absurd hid hid2
      · exact hex
    have hfil : (cfg.url_columns.filter (fun c2 => !(df.columns.contains c2))).isEmpty
        = false := by
      rw [List.isEmpty_eq_false]
      intro hnil
      have := List.filter_eq_nil_iff.mp hnil c hc
      simp only [Bool.not_eq_true', Bool.not_eq_false] at this
      exact hnc (by simpa using this)
    constructor
    · unfold process_csv_trace
      rw [if_pos hid, if_neg (by intro htrue; rw [hfil] at htrue; cases htrue)]
    · unfold process_csv
      rw [if_pos hid, if_neg (by intro htrue; rw [hfil] at htrue; cases htrue)]
  · constructor
    · unfold process_csv_trace
      rw [if_neg hid]
    · unfold process_csv
      rw [if_neg hid]

theorem process_csv_row_count_witness :
    cfg2.id_column ∈ df2.columns ∧
    (∀ c ∈ cfg2.url_columns, c ∈ df2.columns) ∧
    (∃ out, process_csv wAllFail df2 cfg2 = .ret out ∧
      out.length = df2.rows.length * cfg2.url_columns.length ∧
      ∀ i j (hi : i < df2.rows.length) (hj : j < cfg2.url_columns.length) r,
        extract_from_url wAllFail (rowGet df2.rows[i] cfg2.url_columns[j])
          (pyStrOf (rowGet df2.rows[i] cfg2.id_column)) = .ret r →
        out[i * cfg2.url_columns.length + j]? = some (outputRow r)) :=
  ⟨by decide, by decide,
    process_csv_row_count wAllFail df2 cfg2 (by decide) (by decide)
      (by
        intro pr hpr
        rw [show csvPairs df2 cfg2 =
          [(PyVal.none, "1".toList), (PyVal.vstr ("http://a".toList), "1".toList),
           (PyVal.vstr ("  ".toList), "2".toList), (PyVal.vstr ("b".toList), "2".toList)]
          from rfl] at hpr
        fin_cases hpr
        · exact ⟨_, rfl⟩
        · exact ⟨_, rfl⟩
        · exact ⟨_, rfl⟩
        · exact ⟨_, rfl⟩)⟩

theorem process_csv_missing_column_aborts_witness :
    (cfgBad.id_column ∉ df2.columns ∨ ∃ c ∈ cfgBad.url_columns, c ∉ df2.columns) ∧
    process_csv_trace wAllFail df2 cfgBad = (.exn .valueError, []) ∧
    process_csv wAllFail df2 cfgBad = .exn .valueError :=
  ⟨Or.inl (by decide),
    (process_csv_missing_column_aborts wAllFail df2 cfgBad (Or.inl (by decide))).1,
    (process_csv_missing_column_aborts wAllFail df2 cfgBad (Or.inl (by decide))).2⟩

/-- C6: the LLM-response parsing step yields exactly the same (text, date)
outcome on a payload wrapped in Markdown code fences — a leading fence
marker optionally tagged json and/or a trailing fence marker, with
surrounding whitespace — as on the bare payload, for every payload that,
like every JSON value, is non-blank and neither begins nor ends with a
backtick. -/
theorem parse_llm_response_fence_invariant (w : World) (tag lead trail : Bool)
    (ws1 ws2 p : PyStr)
    (hws1 : ∀ c ∈ ws1, c.isWhitespace = true) (hws2 : ∀ c ∈ ws2, c.isWhitespace = true)
    (hq : pyStrip p ≠ [])
    (hpre : (lstrip p).head? ≠ some (Char.ofNat 96))
    (hsuf : (rstrip p).getLast? ≠ some (Char.ofNat 96)) :
    parse_llm_response w (fenceWrap tag lead trail ws1 ws2 p) = parse_llm_response w p := by
  have hpre2 : ∀ c, (lstrip p).head? = some c → c ≠ Char.ofNat 96 :=
    fun c hc he => hpre (by rw [hc, he])
  have hsuf2 : ∀ c, (rstrip p).getLast? = some c → c ≠ Char.ofNat 96 :=
    fun c hc he => hsuf (by rw [hc, he])
  unfold parse_llm_response
  rw [cleanLLMResponse_fenceWrap tag lead trail hws1 hws2 hq hpre2 hsuf2,
    cleanLLMResponse_payload hq hpre2 hsuf2]

theorem parse_llm_response_fence_invariant_witness :
    (∀ c ∈ (" ".toList : PyStr), c.isWhitespace = true) ∧
    (∀ c ∈ ("\n ".toList : PyStr), c.isWhitespace = true) ∧
    pyStrip ("\x7b\"text\": \"hello\", \"date\": null\x7d".toList) ≠ [] ∧
    (lstrip ("\x7b\"text\": \"hello\", \"date\": null\x7d".toList)).head? ≠
      some (Char.ofNat 96) ∧
    (rstrip ("\x7b\"text\": \"hello\", \"date\": null\x7d".toList)).getLast? ≠
      some (Char.ofNat 96) ∧
    parse_llm_response wAllFail
      (fenceWrap true true true (" ".toList) ("\n ".toList)
        ("\x7b\"text\": \"hello\", \"date\": null\x7d".toList)) =
    parse_llm_response wAllFail ("\x7b\"text\": \"hello\", \"date\": null\x7d".toList) :=
  ⟨by decide, by decide, by decide, by decide, by decide,
    parse_llm_response_fence_invariant wAllFail true true true (" ".toList) ("\n ".toList)
      ("\x7b\"text\": \"hello\", \"date\": null\x7d".toList)
      (by decide) (by decide) (by decide) (by decide) (by decide)⟩

/-- C9: counter-evidence to the unconditional row-count claim. On a table
whose identifier and URL columns all exist, a world in which the page fetch
succeeds and the LLM answers the valid JSON object with a null text field
makes the second extraction call raise AttributeError (the same slip as in
extract_with_gemini); process_csv propagates the exception, attempts only
two of the four (row, URL column) pairs, and produces no output rows at
all instead of the four the claim requires. -/
theorem process_csv_llm_null_aborts :
    process_csv wBad df2 cfg2 = .exn .attributeError ∧
    process_csv_trace wBad df2 cfg2 =
      (.exn .attributeError,
       [(PyVal.none, "1".toList), (PyVal.vstr ("http://a".toList), "1".toList)]) :=
  ⟨rfl, rfl⟩
